import Mathlib

/-!
Shallow embedding of the validation and policy-assembly engine of
`policy-generator.js` (Visual_Policy repository).

Strings are modelled as Lean `String`s; character-level work happens on
`String.data` (`List Char`), which models the JavaScript string as a sequence
of characters.  The JavaScript regular expressions used by the source are
translated into executable character-list predicates; each translation is
noted next to the regex it models.  JSON values (the input of the structural
validator and the parsed condition text) are modelled by the inductive type
`Json`; JavaScript truthiness of such values is `truthy`.
-/

/-- `[a-z]` character class (JS regex). -/
def lowerAZ (c : Char) : Bool := 97 ≤ c.toNat && c.toNat ≤ 122

/-- `[0-9]` character class (JS regex). -/
def digitC (c : Char) : Bool := 48 ≤ c.toNat && c.toNat ≤ 57

/-- `[A-Z]` character class (JS regex). -/
def upperAZ (c : Char) : Bool := 65 ≤ c.toNat && c.toNat ≤ 90

/-- `[a-z0-9]` character class. -/
def narrowC (c : Char) : Bool := lowerAZ c || digitC c

/-- `[a-z0-9.-]` character class ('.' is 46, '-' is 45). -/
def broadC (c : Char) : Bool := narrowC c || c.toNat == 46 || c.toNat == 45

/-- `[a-z0-9-]` character class. -/
def dashAlnumC (c : Char) : Bool := narrowC c || c.toNat == 45

/-- `[a-zA-Z0-9]` character class. -/
def alnumC (c : Char) : Bool := lowerAZ c || upperAZ c || digitC c

/-- JS whitespace (the characters removed by `String.prototype.trim`). -/
def jsWhitespace (c : Char) : Bool :=
  (9 ≤ c.toNat && c.toNat ≤ 13) || c.toNat == 32 || c.toNat == 0xA0 ||
  c.toNat == 0x1680 || (0x2000 ≤ c.toNat && c.toNat ≤ 0x200A) ||
  c.toNat == 0x2028 || c.toNat == 0x2029 || c.toNat == 0x202F ||
  c.toNat == 0x205F || c.toNat == 0x3000 || c.toNat == 0xFEFF

/-- JS `String.prototype.trim` (as a character list). -/
def jsTrim (s : String) : List Char :=
  ((s.data.dropWhile jsWhitespace).reverse.dropWhile jsWhitespace).reverse

/-- JS `String.prototype.startsWith`. -/
def strStarts (s pre : String) : Bool := pre.data.isPrefixOf s.data

/-- JS `String.prototype.endsWith`. -/
def strEnds (s suf : String) : Bool := suf.data.isSuffixOf s.data

/-- `needle` occurs as a contiguous substring of `hay`
(JS `String.prototype.includes`). -/
def hasSub (needle hay : List Char) : Bool :=
  hay.tails.any (fun t => needle.isPrefixOf t)

/-- JS `String.prototype.includes` on `String`s. -/
def strHasSub (hay needle : String) : Bool := hasSub needle.data hay.data

/-- JS `String.prototype.split(sep)` for a one-character separator. -/
def splitOnChar (sep : Char) : List Char → List (List Char)
  | [] => [[]]
  | c :: cs =>
    let r := splitOnChar sep cs
    if c == sep then [] :: r
    else
      match r with
      | [] => [[c]]
      | h :: t => (c :: h) :: t

/-- JS `Array.prototype.join(':')` on character lists. -/
def joinColon : List (List Char) → List Char
  | [] => []
  | [l] => l
  | l :: ls => l ++ ':' :: joinColon ls

/-- `/^[a-z0-9]/` — the first character is in `[a-z0-9]` (false on empty). -/
def headNarrow : List Char → Bool
  | c :: _ => narrowC c
  | [] => false

/-- `/[a-z0-9]$/` — the last character is in `[a-z0-9]` (false on empty). -/
def lastNarrow (l : List Char) : Bool :=
  match l.getLast? with
  | some c => narrowC c
  | none => false

/-- `/^(\d{1,3}\.){3}\d{1,3}$/` — exactly four dot-separated groups of one
to three digits (purely syntactic, no ≤255 range check). -/
def ipShape (l : List Char) : Bool :=
  let gs := splitOnChar '.' l
  gs.length == 4 && gs.all (fun g => 1 ≤ g.length && g.length ≤ 3 && g.all digitC)

/-- A structural verdict: `isValid` plus an ordered list of error messages.
Shape of the value returned by `validateBucketName`. -/
structure BucketVerdict where
  isValid : Bool
  errors : List String
deriving Repr, DecidableEq

/-- Embedding of `validateBucketName` (policy-generator.js lines 33-98).
Each rule contributes its error message independently; the rule conditions
are the source's regular expressions and substring tests. -/
def validateBucketName (bucketName : String) : BucketVerdict :=
  let s := bucketName.data
  let errors : List String :=
    -- Rule 1: length bounds
    (if s.length < 3 then ["Bucket name must be at least 3 characters long"] else []) ++
    (if s.length > 63 then ["Bucket name cannot exceed 63 characters"] else []) ++
    -- Rule 2: /^[a-z0-9.-]+$/
    (if !(!s.isEmpty && s.all broadC) then
      ["Bucket name can only contain lowercase letters, numbers, dots (.), and hyphens (-)"]
     else []) ++
    -- Rule 3: /^[a-z0-9]/ and /[a-z0-9]$/
    (if !headNarrow s then
      ["Bucket name must begin with a lowercase letter or number"] else []) ++
    (if !lastNarrow s then
      ["Bucket name must end with a lowercase letter or number"] else []) ++
    -- Rule 4: must not look like an IP address
    (if ipShape s then
      ["Bucket name cannot be formatted as an IP address (e.g., 192.168.1.1)"] else []) ++
    -- Rule 5: startsWith('xn--')
    (if "xn--".data.isPrefixOf s then ["Bucket name cannot start with \"xn--\""] else []) ++
    -- Rule 6: endsWith('-s3alias')
    (if "-s3alias".data.isSuffixOf s then ["Bucket name cannot end with \"-s3alias\""] else []) ++
    -- Rule 7: includes('..')
    (if hasSub "..".data s then ["Bucket name cannot contain two adjacent periods (..)"] else []) ++
    -- Rule 8: includes('.-') || includes('-.')
    (if hasSub ".-".data s || hasSub "-.".data s then
      ["Bucket name cannot have a period adjacent to a hyphen"] else []) ++
    -- Rule 9: /[A-Z]/
    (if s.any upperAZ then ["Bucket name cannot contain uppercase letters"] else []) ++
    -- Rule 10: includes('_')
    (if s.contains '_' then ["Bucket name cannot contain underscores (_)"] else [])
  { isValid := errors.isEmpty, errors := errors }

example : (validateBucketName "my-bucket.01").isValid = true := by decide
example : (validateBucketName "Ab").errors.length = 4 := by decide
example : (validateBucketName "192.168.1.1").errors.length = 1 := by decide
example : (validateBucketName "xn--abc").errors.length = 1 := by decide

/-- Verdict shape returned by `validatePrincipalARN`. -/
structure PrincipalVerdict where
  isValid : Bool
  errors : List String
  warnings : List String
deriving Repr, DecidableEq

/-- `/^[a-f0-9]{64}$/` — 64-character lowercase-hex string. -/
def isHex64 (s : String) : Bool :=
  s.data.length == 64 && s.data.all (fun c => (97 ≤ c.toNat && c.toNat ≤ 102) || digitC c)

/-- `principal.includes('.amazonaws.com') || principal.includes('.amazon.com')`. -/
def svcDomainB (s : String) : Bool :=
  strHasSub s ".amazonaws.com" || strHasSub s ".amazon.com"

/-- `/^[a-z0-9-]+\.(amazonaws\.com|amazon\.com)$/` — a nonempty `[a-z0-9-]`
prefix followed by one of the two literal domains. -/
def svcRegexOk (s : String) : Bool :=
  (strEnds s ".amazonaws.com" &&
    (let p := s.data.take (s.data.length - 14); !p.isEmpty && p.all dashAlnumC)) ||
  (strEnds s ".amazon.com" &&
    (let p := s.data.take (s.data.length - 11); !p.isEmpty && p.all dashAlnumC))

/-- JS `.` (any character except a line terminator). -/
def notLineTerm (c : Char) : Bool :=
  !(c.toNat == 10 || c.toNat == 13 || c.toNat == 0x2028 || c.toNat == 0x2029)

/-- `/^arn:(aws|aws-cn|aws-us-gov):([a-z0-9-]+):([a-z0-9-]*):([0-9]{12}|):(.+)$/`
evaluated over the colon-split parts (none of the bounded groups may contain
`':'`, so splitting on `':'` gives the groups exactly; the `(.+)` group is
everything after the fifth colon). -/
def arnRegexOk (s : String) : Bool :=
  let parts := splitOnChar ':' s.data
  let resource := joinColon (parts.drop 5)
  parts.getD 0 [] == "arn".data &&
  decide (6 ≤ parts.length) &&
  (parts.getD 1 [] == "aws".data || parts.getD 1 [] == "aws-cn".data ||
    parts.getD 1 [] == "aws-us-gov".data) &&
  (!(parts.getD 2 []).isEmpty && (parts.getD 2 []).all dashAlnumC) &&
  (parts.getD 3 []).all dashAlnumC &&
  ((parts.getD 4 []).length == 12 && (parts.getD 4 []).all digitC ||
    (parts.getD 4 []).isEmpty) &&
  (!resource.isEmpty && resource.all notLineTerm)

/-- The `arn:ipcld` sub-branch of `validatePrincipalARN`
(policy-generator.js lines 173-205): errors accumulated for a
partition-`ipcld` ARN. -/
def ipcldErrors (parts : List (List Char)) : List String :=
  let service := parts.getD 2 []
  let canonicalId := parts.getD 4 []
  let resource := joinColon (parts.drop 5)
  (if !(service == "iam".data) then
    ["Impossible Cloud ARNs currently only support IAM service (arn:ipcld:iam::...)"]
   else []) ++
  (if canonicalId.isEmpty then
    ["Impossible Cloud ARN requires a canonical ID (arn:ipcld:iam::YourCanonicalID:...)"]
   else []) ++
  (if resource.isEmpty then
    ["Impossible Cloud ARN requires a resource (e.g., user/username, policy/policyname)"]
   else if !resource.contains '/' then
    ["Impossible Cloud resource must include type/name (e.g., user/username, policy/policyname)"]
   else [])

/-- The standard-cloud ARN sub-checks of `validatePrincipalARN`
(policy-generator.js lines 208-295), run only when `arnRegexOk` holds.
Returns the (errors, warnings) the branch pushes. -/
def awsArnChecks (principal : String) : List String × List String :=
  let parts := splitOnChar ':' principal.data
  let partition := parts.getD 1 []
  let service := parts.getD 2 []
  let region := parts.getD 3 []
  let accountId := parts.getD 4 []
  let resource := joinColon (parts.drop 5)
  let validServices : List (List Char) := ["iam".data, "s3".data, "sts".data]
  let awsOnlyServices : List (List Char) :=
    ["ec2".data, "lambda".data, "cloudfront".data, "elasticloadbalancing".data,
     "rds".data, "dynamodb".data]
  let partitionErrs :=
    if !(partition == "aws".data || partition == "aws-cn".data ||
          partition == "aws-us-gov".data) then
      ["Invalid partition \"" ++ String.mk partition ++
        "\". Must be: aws, aws-cn, aws-us-gov, or ipcld (Impossible Cloud)"]
    else []
  let serviceWarns :=
    if !(validServices.contains service) && !(awsOnlyServices.contains service) then
      ["Service \"" ++ String.mk service ++
        "\" is unusual for S3 bucket policies. Common services: iam, s3, sts"]
    else if awsOnlyServices.contains service then
      ["⚠ Service \"" ++ String.mk service ++
        "\" is AWS-specific and not supported by Impossible Cloud. Use iam, s3, or sts instead."]
    else []
  let iamAccountErrs :=
    if service == "iam".data then
      if accountId.isEmpty then ["IAM ARN requires a 12-digit account ID"]
      else if !(accountId.length == 12 && accountId.all digitC) then
        ["Account ID must be exactly 12 digits, got: " ++ String.mk accountId]
      else []
    else []
  let validResourceTypes : List (List Char) :=
    ["user".data, "role".data, "group".data, "instance-profile".data, "root".data,
     "federated-user".data, "assumed-role".data]
  let resourceType := (splitOnChar '/' resource).getD 0 []
  let iamResourceErrs :=
    if service == "iam".data then
      if resource.isEmpty then
        ["IAM ARN requires a resource (e.g., user/username, role/rolename, or root)"]
      else if !(resource == "root".data) && !resource.contains '/' then
        ["IAM resource must be \"root\" or include type/name (e.g., user/username)"]
      else []
    else []
  let iamResourceWarns :=
    if service == "iam".data && !resource.isEmpty &&
        !(resource == "root".data) && resource.contains '/' &&
        !(validResourceTypes.contains resourceType) then
      ["Resource type \"" ++ String.mk resourceType ++
        "\" may not be valid. Common types: user, role, root"]
    else []
  let iamRegionWarns :=
    if service == "iam".data && !region.isEmpty then
      ["IAM ARNs typically do not specify a region"]
    else []
  let s3Warns :=
    if service == "s3".data then
      (if !accountId.isEmpty then ["S3 ARNs typically do not include account ID"] else []) ++
      (if !region.isEmpty then ["S3 ARNs typically do not specify a region"] else [])
    else []
  (partitionErrs ++ iamAccountErrs ++ iamResourceErrs,
   serviceWarns ++ iamResourceWarns ++ iamRegionWarns ++ s3Warns)

/-- Branches 5-7 of `validatePrincipalARN` (policy-generator.js lines 168-307):
the `arn:` branch, the bare-digits branch, and the final fall-through.
Returns the (errors, warnings) these branches push. -/
def arnOrDigitsChecks (principal : String) : List String × List String :=
  if strStarts principal "arn:" then
    let parts := splitOnChar ':' principal.data
    if parts.getD 1 [] == "ipcld".data then (ipcldErrors parts, [])
    else if !arnRegexOk principal then
      (["Invalid ARN format. Expected: arn:aws:service:region:account-id:resource or arn:ipcld:iam::CanonicalID:resource"],
       [])
    else awsArnChecks principal
  else if !(principal.data.contains '.') then
    if principal.data.length == 12 && principal.data.all digitC then
      ([], ["Using just an account ID. Consider using full ARN format: arn:aws:iam::123456789012:root"])
    else
      (["Principal must be \"*\", a valid ARN (arn:aws:... or arn:ipcld:...), canonical user ID (64-char hex), service principal (service.amazonaws.com), or 12-digit account ID"],
       [])
  else ([], [])

/-- Embedding of `validatePrincipalARN` (policy-generator.js lines 131-314).
The first four special cases return early; a service-principal string that
fails the format regex pushes its error and falls through (the source has no
`return` on that path), so the `arn:`/digits/fall-through checks still run
and their errors accumulate after it. -/
def validatePrincipalARN (principal : String) : PrincipalVerdict :=
  if principal == "*" then
    { isValid := true, errors := [],
      warnings := ["Using \"*\" grants public access - ensure this is intentional for security"] }
  else if principal == "" || (jsTrim principal).isEmpty then
    { isValid := true, errors := [], warnings := [] }
  else if isHex64 principal then
    { isValid := true, errors := [],
      warnings := ["Using canonical user ID - ensure this is an Impossible Cloud canonical ID"] }
  else if svcDomainB principal then
    if svcRegexOk principal then
      { isValid := true, errors := [],
        warnings := ["⚠ AWS service principals (*.amazonaws.com) may not be supported by Impossible Cloud. Use IAM user/role ARNs instead."] }
    else
      let rest := arnOrDigitsChecks principal
      let errors := "Service principal format should be: service-name.amazonaws.com" :: rest.1
      { isValid := errors.isEmpty, errors := errors, warnings := rest.2 }
  else
    let rest := arnOrDigitsChecks principal
    { isValid := rest.1.isEmpty, errors := rest.1, warnings := rest.2 }

example : (validatePrincipalARN "arn:aws:iam::123456789012:user/alice") =
    { isValid := true, errors := [], warnings := [] } := by decide
example : (validatePrincipalARN "arn:aws:iam::123:user/alice").isValid = false := by decide
example : (validatePrincipalARN "arn:ipcld:iam::abc123:user/bob").isValid = true := by decide
example : (validatePrincipalARN "arn:ipcld:s3::abc123:bucket/x").isValid = false := by decide
example : (validatePrincipalARN "*").warnings.length = 1 := by decide
example : (validatePrincipalARN "s3.amazonaws.com").isValid = true := by decide
example : (validatePrincipalARN "a.b") = { isValid := true, errors := [], warnings := [] } := by
  decide
example : (validatePrincipalARN "arn:x.amazonaws.com").errors.length = 2 := by decide
example : (validatePrincipalARN "123456789012").warnings.length = 1 := by decide
example : (validatePrincipalARN "123").errors.length = 1 := by decide

/-- Model of a parsed JSON value (the output of `JSON.parse`, which the
source treats as an opaque primitive).  `obj` keeps entries in insertion
order, matching `Object.keys` enumeration of `JSON.parse` output. -/
inductive Json where
  | null
  | bool (b : Bool)
  | num (n : Int)
  | str (s : String)
  | arr (xs : List Json)
  | obj (kvs : List (String × Json))

/-- JS truthiness of a JSON value (`null`, `false`, `0` and `""` are falsy;
arrays and objects are always truthy). -/
def truthy : Json → Bool
  | .null => false
  | .bool b => b
  | .num n => !(n == 0)
  | .str s => !(s == "")
  | .arr _ => true
  | .obj _ => true

/-- JS property access `v[key]`: `some` value for an object's first binding
of `key`, otherwise `none` (JS `undefined`). -/
def getKey (j : Json) (key : String) : Option Json :=
  match j with
  | .obj kvs => kvs.lookup key
  | _ => none

/-- Truthiness of a possibly-absent value (`undefined` is falsy). -/
def truthyOpt : Option Json → Bool
  | none => false
  | some j => truthy j

/-- JS `Object.keys`: an object's keys in order; an array's index strings;
empty for primitives. -/
def keysOf : Json → List String
  | .obj kvs => kvs.map Prod.fst
  | .arr xs => (List.range xs.length).map Nat.repr
  | _ => []

/-- `typeof v === 'object' && v !== null && !Array.isArray(v)` —
the source's "plain object" test used for Condition values. -/
def isPlainObj : Json → Bool
  | .obj _ => true
  | _ => false

/-- The result of `JSON.parse` on the caller-supplied condition text, as
observed by `generatePolicy`: the text is blank after trimming, or it fails
to parse, or it parses to a JSON value.  (`JSON.parse` itself is a trusted
external primitive; the assembler only branches on this outcome.) -/
inductive CondInput where
  | blank
  | invalid
  | parsed (j : Json)

/-- The two failure outcomes of the assembler (surfaced by the source as
early returns with an error notification and no document). -/
inductive GenError where
  | EmptyActionSet
  | InvalidConditionJSON
deriving Repr, DecidableEq

/-- The statement object built by `generatePolicy` (lines 946-961).
`Action`/`Resource` hold the collapsed string-or-array JSON value;
`Condition` is present only when condition text was supplied. -/
structure Statement where
  Sid : String
  Effect : String
  Action : Json
  Resource : Json
  Condition : Option Json

/-- The policy document built by `generatePolicy` (lines 964-967). -/
structure Policy where
  Version : String
  Statement : List Statement

/-- `actions.length === 1 ? actions[0] : actions` — collapse a string list
to a bare JSON string when it has exactly one element. -/
def collapseStr (l : List String) : Json :=
  match l with
  | [a] => .str a
  | _ => .arr (l.map .str)

/-- `document.getElementById('resourcePath').value.trim() || '*'` — the
resource path defaults to `"*"` when blank after trimming. -/
def effectivePath (path : String) : String :=
  if (jsTrim path).isEmpty then "*" else String.mk (jsTrim path)

/-- `actions.some(a => a === 's3:ListBucket' || a.startsWith('s3:GetBucket')
|| a.startsWith('s3:PutBucket'))` (line 930). -/
def needsBucketResource (actions : List String) : Bool :=
  actions.any (fun a =>
    a == "s3:ListBucket" || strStarts a "s3:GetBucket" || strStarts a "s3:PutBucket")

/-- `actions.some(a => a.includes('Object'))` (line 933). -/
def needsObjectResource (actions : List String) : Bool :=
  actions.any (fun a => strHasSub a "Object")

/-- The resource-ARN list built by `generatePolicy` (lines 929-943):
bucket-level ARN when bucket-scoped actions are present, object-level ARN
when object actions are present, and the `<bucket>/*` fallback when the
list would otherwise be empty. -/
def buildResources (bucketName path : String) (actions : List String) : List String :=
  let rs :=
    (if needsBucketResource actions then ["arn:aws:s3:::" ++ bucketName] else []) ++
    (if needsObjectResource actions then ["arn:aws:s3:::" ++ bucketName ++ "/" ++ path] else [])
  if rs.isEmpty then ["arn:aws:s3:::" ++ bucketName ++ "/*"] else rs

/-- The PolicyAssembler: the assembly core of `generatePolicy`
(policy-generator.js lines 903-971).  Inputs are the plain values the form
wrapper reads: the (already validated, per the host contract) bucket name,
the effect, the raw resource path, the merged action list, and the observed
`JSON.parse` outcome of the condition text.  `now` models the `Date.now()`
reading used to synthesize `Sid`.  The wrapper's DOM reads, bucket-field
re-validation guard and notifications (lines 884-901, 958, 969-971) are the
calling form's concern and sit outside the assembler component. -/
def generatePolicy (bucketName effect path : String) (actions : List String)
    (cond : CondInput) (now : Nat) : Except GenError Policy :=
  if actions.isEmpty then .error .EmptyActionSet
  else
    let resources := buildResources bucketName (effectivePath path) actions
    let condition? : Option (Option Json) :=
      match cond with
      | .blank => some none
      | .invalid => none
      | .parsed j => some (some j)
    match condition? with
    | none => .error .InvalidConditionJSON
    | some c =>
      .ok { Version := "2012-10-17"
            Statement := [{ Sid := "GeneratedPolicy" ++ Nat.repr now
                            Effect := effect
                            Action := collapseStr actions
                            Resource := collapseStr resources
                            Condition := c }] }

/-- The statement object as JSON, with keys in the insertion order of
lines 946-961 (`Condition` added last, only when present). -/
def statementToJson (st : Statement) : Json :=
  .obj ([("Sid", .str st.Sid), ("Effect", .str st.Effect),
         ("Action", st.Action), ("Resource", st.Resource)] ++
        (match st.Condition with
         | some c => [("Condition", c)]
         | none => []))

/-- The policy document as JSON (lines 964-967). -/
def policyToJson (p : Policy) : Json :=
  .obj [("Version", .str p.Version), ("Statement", .arr (p.Statement.map statementToJson))]

example :
    generatePolicy "test-bucket" "Allow" "" ["s3:GetObject"] .blank 7 =
      .ok { Version := "2012-10-17"
            Statement := [{ Sid := "GeneratedPolicy7", Effect := "Allow",
                            Action := .str "s3:GetObject",
                            Resource := .str "arn:aws:s3:::test-bucket/*",
                            Condition := none }] } := rfl
example :
    buildResources "b" "p" ["s3:ListBucket", "s3:GetObject"] =
      ["arn:aws:s3:::b", "arn:aws:s3:::b/p"] := by decide
example : generatePolicy "b" "Allow" "" [] .blank 0 = .error .EmptyActionSet := rfl
example : generatePolicy "b" "Allow" "" ["s3:GetObject"] .invalid 0 =
    .error .InvalidConditionJSON := rfl

mutual

/-- JS template-literal interpolation of a JSON value (only ever reached for
the values the validator echoes into messages). -/
def jsDisplay : Json → String
  | .null => "null"
  | .bool b => if b then "true" else "false"
  | .num n => Int.repr n
  | .str s => s
  | .arr xs => String.intercalate "," (jsDisplayList xs)
  | .obj _ => "[object Object]"

/-- Pointwise `jsDisplay` over a list of JSON values. -/
def jsDisplayList : List Json → List String
  | [] => []
  | j :: rest => jsDisplay j :: jsDisplayList rest

end

/-- `Array.isArray(x) ? x : [x]` — normalize a JSON value to a list. -/
def jsToList : Json → List Json
  | .arr xs => xs
  | x => [x]

/-- The recognized S3 action vocabulary of `validateActions`
(policy-generator.js lines 1254-1323), duplicates included. -/
def validS3Actions : List String :=
  ["s3:*", "s3:GetObject", "s3:PutObject", "s3:DeleteObject", "s3:GetObjectVersion",
   "s3:DeleteObjectVersion", "s3:GetObjectAcl", "s3:PutObjectAcl", "s3:GetObjectVersionAcl",
   "s3:PutObjectVersionAcl", "s3:GetObjectAttributes", "s3:GetObjectVersionAttributes",
   "s3:GetObjectTagging", "s3:PutObjectTagging", "s3:DeleteObjectTagging",
   "s3:GetObjectVersionTagging", "s3:PutObjectVersionTagging", "s3:DeleteObjectVersionTagging",
   "s3:GetObjectTorrent", "s3:GetObjectVersionTorrent", "s3:GetObjectAttributes",
   "s3:GetObjectVersionAttributes", "s3:ListBucket", "s3:ListBucketVersions",
   "s3:ListBucketMultipartUploads", "s3:GetBucketLocation", "s3:GetBucketVersioning",
   "s3:PutBucketVersioning", "s3:GetBucketAcl", "s3:PutBucketAcl", "s3:GetBucketCORS",
   "s3:PutBucketCORS", "s3:DeleteBucketCORS", "s3:GetBucketWebsite", "s3:PutBucketWebsite",
   "s3:DeleteBucketWebsite", "s3:GetBucketLogging", "s3:PutBucketLogging",
   "s3:GetBucketNotification", "s3:PutBucketNotification", "s3:GetBucketPolicy",
   "s3:PutBucketPolicy", "s3:DeleteBucketPolicy", "s3:GetBucketRequestPayment",
   "s3:PutBucketRequestPayment", "s3:GetBucketTagging", "s3:PutBucketTagging",
   "s3:DeleteBucketTagging", "s3:GetReplicationConfiguration", "s3:PutReplicationConfiguration",
   "s3:GetAccelerateConfiguration", "s3:PutAccelerateConfiguration",
   "s3:GetEncryptionConfiguration", "s3:PutEncryptionConfiguration",
   "s3:GetBucketObjectLockConfiguration", "s3:PutBucketObjectLockConfiguration",
   "s3:GetObjectLockConfiguration", "s3:PutObjectLockConfiguration",
   "s3:GetBucketPublicAccessBlock", "s3:PutBucketPublicAccessBlock",
   "s3:GetObjectLegalHold", "s3:PutObjectLegalHold", "s3:GetObjectRetention",
   "s3:PutObjectRetention", "s3:BypassGovernanceRetention", "s3:AbortMultipartUpload",
   "s3:ListMultipartUploadParts", "s3:RestoreObject"]

/-- One iteration of the `actionList.forEach` body of `validateActions`
(lines 1325-1343): (errors, warnings) pushed for entry `idx`. -/
def actionItemCheck (pfx : String) (idx : Nat) (j : Json) : List String × List String :=
  let tag := pfx ++ "[" ++ Nat.repr idx ++ "]"
  match j with
  | .str action =>
    if !(action.data.contains ':') then
      ([tag ++ ": Invalid format \"" ++ action ++ "\". Must be \"service:action\""], [])
    else
      let parts := splitOnChar ':' action.data
      let service := parts.getD 0 []
      let actionName := parts.getD 1 []
      if !(service == "s3".data) && !(action == "*") then
        ([], [tag ++ ": \"" ++ action ++ "\" is not an S3 action"])
      else if service == "s3".data && !(actionName == "*".data) &&
          !(validS3Actions.contains action) && !(actionName.contains '*') then
        ([], [tag ++ ": \"" ++ action ++ "\" may not be a valid S3 action"])
      else ([], [])
  | _ => ([tag ++ ": Must be a string"], [])

/-- The indexed `forEach` walk over action entries. -/
def actionItemsCheck (pfx : String) (idx : Nat) : List Json → List String × List String
  | [] => ([], [])
  | j :: rest =>
    let h := actionItemCheck pfx idx j
    let r := actionItemsCheck pfx (idx + 1) rest
    (h.1 ++ r.1, h.2 ++ r.2)

/-- Embedding of `validateActions` (policy-generator.js lines 1246-1344),
returning the (errors, warnings) it pushes. -/
def validateActions (pfx : String) (j : Json) : List String × List String :=
  let actionList := jsToList j
  if actionList.isEmpty then ([pfx ++ ": Cannot be empty"], [])
  else actionItemsCheck pfx 0 actionList

/-- `/^[a-z0-9][a-z0-9.-]*[a-z0-9]$/` — the lighter post-hoc bucket-name
shape used by `validateResources` (needs at least two characters). -/
def looseTail : List Char → Bool
  | [] => false
  | [d] => narrowC d
  | d :: ds => broadC d && looseTail ds

/-- See `looseTail`: first char in `[a-z0-9]`, middle in `[a-z0-9.-]`,
last in `[a-z0-9]`. -/
def looseBucketRe : List Char → Bool
  | [] => false
  | c :: cs => narrowC c && looseTail cs

/-- One iteration of the `resourceList.forEach` body of `validateResources`
(lines 1354-1376). -/
def resourceItemCheck (pfx : String) (idx : Nat) (j : Json) : List String × List String :=
  let tag := pfx ++ "[" ++ Nat.repr idx ++ "]"
  match j with
  | .str resource =>
    if !(strStarts resource "arn:aws:s3:::") && !(resource == "*") then
      ([tag ++ ": Must be a valid S3 ARN (arn:aws:s3:::...) or \"*\""], [])
    else if strStarts resource "arn:aws:s3:::" then
      let bucketPart := resource.data.drop 13
      let hasPath := bucketPart.contains '/'
      ((if bucketPart.isEmpty then [tag ++ ": Missing bucket name in ARN"] else []) ++
       (if hasSub "//".data bucketPart then
         [tag ++ ": Invalid path - contains double slashes"] else []) ++
       (if !hasPath && decide (63 < bucketPart.length) then
         [tag ++ ": Bucket name too long (max 63 characters)"] else []),
       if !hasPath && !looseBucketRe bucketPart then
         [tag ++ ": Bucket name may not follow S3 naming rules"] else [])
    else ([], [])
  | _ => ([tag ++ ": Must be a string"], [])

/-- The indexed `forEach` walk over resource entries. -/
def resourceItemsCheck (pfx : String) (idx : Nat) : List Json → List String × List String
  | [] => ([], [])
  | j :: rest =>
    let h := resourceItemCheck pfx idx j
    let r := resourceItemsCheck pfx (idx + 1) rest
    (h.1 ++ r.1, h.2 ++ r.2)

/-- Embedding of `validateResources` (policy-generator.js lines 1346-1377). -/
def validateResources (pfx : String) (j : Json) : List String × List String :=
  let resourceList := jsToList j
  if resourceList.isEmpty then ([pfx ++ ": Cannot be empty"], [])
  else resourceItemsCheck pfx 0 resourceList

/-- The recognized IAM condition-operator vocabulary of `validateCondition`
(policy-generator.js lines 1385-1449). -/
def validConditionOperators : List String :=
  ["StringEquals", "StringNotEquals", "StringLike", "StringNotLike",
   "StringEqualsIgnoreCase", "StringNotEqualsIgnoreCase",
   "StringEqualsIfExists", "StringNotEqualsIfExists", "StringLikeIfExists",
   "StringNotLikeIfExists", "StringEqualsIgnoreCaseIfExists",
   "StringNotEqualsIgnoreCaseIfExists",
   "NumericEquals", "NumericNotEquals", "NumericLessThan", "NumericLessThanEquals",
   "NumericGreaterThan", "NumericGreaterThanEquals",
   "NumericEqualsIfExists", "NumericNotEqualsIfExists", "NumericLessThanIfExists",
   "NumericLessThanEqualsIfExists", "NumericGreaterThanIfExists",
   "NumericGreaterThanEqualsIfExists",
   "DateEquals", "DateNotEquals", "DateLessThan", "DateLessThanEquals",
   "DateGreaterThan", "DateGreaterThanEquals",
   "DateEqualsIfExists", "DateNotEqualsIfExists", "DateLessThanIfExists",
   "DateLessThanEqualsIfExists", "DateGreaterThanIfExists", "DateGreaterThanEqualsIfExists",
   "Bool", "BinaryEquals", "BoolIfExists", "BinaryEqualsIfExists",
   "IpAddress", "NotIpAddress", "IpAddressIfExists", "NotIpAddressIfExists",
   "ArnEquals", "ArnLike", "ArnNotEquals", "ArnNotLike",
   "ArnEqualsIfExists", "ArnLikeIfExists", "ArnNotEqualsIfExists", "ArnNotLikeIfExists",
   "Null"]

/-- `operator.split(':')[1]` after a `ForAllValues:`/`ForAnyValue:` test —
the operator name checked against the vocabulary (lines 1452-1456). -/
def stripSetOp (op : String) : String :=
  if strStarts op "ForAllValues:" || strStarts op "ForAnyValue:" then
    String.mk ((splitOnChar ':' op.data).getD 1 [])
  else op

/-- The errors pushed for one operator key of a Condition object
(lines 1451-1470). -/
def condKeyCheck (pfx : String) (c : Json) (op : String) : List String :=
  (if !(validConditionOperators.contains (stripSetOp op)) then
    [pfx ++ ": Unknown condition operator \"" ++ op ++ "\""] else []) ++
  (let conditionBlock := getKey c op
   if (match conditionBlock with | some b => isPlainObj b | none => false) then []
   else [pfx ++ "." ++ op ++ ": Must be an object"])

/-- The `Object.keys(condition).forEach` walk. -/
def condKeysCheck (pfx : String) (c : Json) : List String → List String
  | [] => []
  | k :: rest => condKeyCheck pfx c k ++ condKeysCheck pfx c rest

/-- Embedding of `validateCondition` (policy-generator.js lines 1379-1471);
it pushes only errors, never warnings. -/
def validateCondition (pfx : String) (c : Json) : List String :=
  if !(isPlainObj c) then [pfx ++ ": Must be an object"]
  else condKeysCheck pfx c (keysOf c)

example : validateCondition "P" (.obj [("StringLike", .obj [("s3:prefix", .arr [.str "a/*"])])]) =
    [] := rfl
example : (validateCondition "P" (.obj [("BogusOperator", .obj [])])).length = 1 := by decide
example : (validateCondition "P" (.arr [])).length = 1 := by decide
example : validateCondition "P" (.obj [("ForAllValues:StringEquals", .obj [])]) = [] := rfl

/-- The Sid check of `validateStatement` (lines 1105-1111):
`^[a-zA-Z0-9]+$` when present and a string. -/
def sidErrors (pfx : String) (stmt : Json) : List String :=
  match getKey stmt "Sid" with
  | none => []
  | some (.str s) =>
    if !(!s.data.isEmpty && s.data.all alnumC) then
      [pfx ++ ": Sid must contain only alphanumeric characters"]
    else []
  | some _ => [pfx ++ ": Sid must be a string"]

/-- The Effect check of `validateStatement` (lines 1114-1118). -/
def effectErrors (pfx : String) (stmt : Json) : List String :=
  let e := getKey stmt "Effect"
  let isAllowOrDeny := match e with | some (.str s) => s == "Allow" || s == "Deny" | _ => false
  if !(truthyOpt e) then [pfx ++ ": Missing required field \"Effect\""]
  else if !isAllowOrDeny then
    [pfx ++ ": Effect must be \"Allow\" or \"Deny\", got \"" ++
      (match e with | some v => jsDisplay v | none => "undefined") ++ "\""]
  else []

/-- The Principal warning of `validateStatement` (lines 1123-1127): pushed
when `stmt.Principal` is truthy. -/
def principalWarnings (pfx : String) (stmt : Json) : List String :=
  if truthyOpt (getKey stmt "Principal") then
    [pfx ++ ": Principal field is not supported by Impossible Cloud and will be ignored"]
  else []

/-- The NotPrincipal warning of `validateStatement` (lines 1128-1132). -/
def notPrincipalWarnings (pfx : String) (stmt : Json) : List String :=
  if truthyOpt (getKey stmt "NotPrincipal") then
    [pfx ++ ": NotPrincipal field is not supported by Impossible Cloud and will be ignored"]
  else []

/-- The Action/NotAction block of `validateStatement` (lines 1135-1146):
presence errors followed by `validateActions` on each present field. -/
def actionBlock (pfx : String) (stmt : Json) : List String × List String :=
  let a := getKey stmt "Action"
  let na := getKey stmt "NotAction"
  let presenceErrs :=
    (if !(truthyOpt a) && !(truthyOpt na) then [pfx ++ ": Missing \"Action\" or \"NotAction\""]
     else []) ++
    (if truthyOpt a && truthyOpt na then
      [pfx ++ ": Cannot have both \"Action\" and \"NotAction\""] else [])
  let aRes := if truthyOpt a then validateActions (pfx ++ ".Action") (a.getD .null) else ([], [])
  let naRes :=
    if truthyOpt na then validateActions (pfx ++ ".NotAction") (na.getD .null) else ([], [])
  (presenceErrs ++ aRes.1 ++ naRes.1, aRes.2 ++ naRes.2)

/-- The Resource/NotResource block of `validateStatement` (lines 1149-1160). -/
def resourceBlock (pfx : String) (stmt : Json) : List String × List String :=
  let r := getKey stmt "Resource"
  let nr := getKey stmt "NotResource"
  let presenceErrs :=
    (if !(truthyOpt r) && !(truthyOpt nr) then [pfx ++ ": Missing \"Resource\" or \"NotResource\""]
     else []) ++
    (if truthyOpt r && truthyOpt nr then
      [pfx ++ ": Cannot have both \"Resource\" and \"NotResource\""] else [])
  let rRes :=
    if truthyOpt r then validateResources (pfx ++ ".Resource") (r.getD .null) else ([], [])
  let nrRes :=
    if truthyOpt nr then validateResources (pfx ++ ".NotResource") (nr.getD .null) else ([], [])
  (presenceErrs ++ rRes.1 ++ nrRes.1, rRes.2 ++ nrRes.2)

/-- The Condition block of `validateStatement` (lines 1163-1165). -/
def conditionBlockErrors (pfx : String) (stmt : Json) : List String :=
  match getKey stmt "Condition" with
  | some c => if truthy c then validateCondition (pfx ++ ".Condition") c else []
  | none => []

/-- The valid statement-level field names (lines 1168-1178). -/
def validStmtFields : List String :=
  ["Sid", "Effect", "Principal", "NotPrincipal", "Action", "NotAction",
   "Resource", "NotResource", "Condition"]

/-- The unknown-field warnings of `validateStatement` (lines 1179-1183). -/
def unknownStmtFieldWarnings (pfx : String) (stmt : Json) : List String :=
  (keysOf stmt).filterMap (fun k =>
    if !(validStmtFields.contains k) then some (pfx ++ ": Unknown field \"" ++ k ++ "\"")
    else none)

/-- Embedding of `validateStatement` (policy-generator.js lines 1095-1184):
the (errors, warnings) pushed for the statement at index `idx`.  A non-object
primitive (or `null`) short-circuits with a single error; JS `typeof` calls
arrays objects, so arrays fall through to the field walk. -/
def validateStatement (stmt : Json) (idx : Nat) : List String × List String :=
  let pfx := "Statement[" ++ Nat.repr idx ++ "]"
  match stmt with
  | .obj _ | .arr _ =>
    let ab := actionBlock pfx stmt
    let rb := resourceBlock pfx stmt
    (sidErrors pfx stmt ++ effectErrors pfx stmt ++ ab.1 ++ rb.1 ++
      conditionBlockErrors pfx stmt,
     principalWarnings pfx stmt ++ notPrincipalWarnings pfx stmt ++ ab.2 ++ rb.2 ++
      unknownStmtFieldWarnings pfx stmt)
  | _ => ([pfx ++ ": Must be an object"], [])

/-- The `policy.Statement.forEach((stmt, idx) => ...)` walk (lines 1064-1067). -/
def statementsCheck (idx : Nat) : List Json → List String × List String
  | [] => ([], [])
  | s :: rest =>
    let h := validateStatement s idx
    let r := statementsCheck (idx + 1) rest
    (h.1 ++ r.1, h.2 ++ r.2)

/-- Step 2 of `validatePolicy` (lines 1041-1043): root must be a non-null
`typeof 'object'` value (JS counts arrays as objects). -/
def rootTypeErrors (p : Json) : List String :=
  match p with
  | .obj _ | .arr _ => []
  | _ => ["Policy must be a JSON object"]

/-- Step 3 of `validatePolicy` (lines 1046-1054): the Version field. -/
def versionCheck (p : Json) : List String × List String :=
  let v := getKey p "Version"
  if !(truthyOpt v) then (["Missing required field: Version"], [])
  else
    match v with
    | some (.str s) =>
      if !(s == "2012-10-17") && !(s == "2008-10-17") then
        (["Invalid Version: \"" ++ s ++ "\". Must be \"2012-10-17\" or \"2008-10-17\""], [])
      else if s == "2008-10-17" then
        ([], ["Version \"2008-10-17\" is deprecated. Use \"2012-10-17\""])
      else ([], [])
    | _ => (["Version must be a string"], [])

/-- Step 4 of `validatePolicy` (lines 1057-1068): the Statement array and
the per-statement walk. -/
def statementFieldCheck (p : Json) : List String × List String :=
  let st := getKey p "Statement"
  if !(truthyOpt st) then (["Missing required field: Statement"], [])
  else
    match st with
    | some (.arr xs) =>
      if xs.isEmpty then (["Statement array cannot be empty"], [])
      else statementsCheck 0 xs
    | _ => (["Statement must be an array"], [])

/-- Step 5 of `validatePolicy` (lines 1071-1076): unknown root fields. -/
def unknownRootFieldWarnings (p : Json) : List String :=
  (keysOf p).filterMap (fun k =>
    if !(["Version", "Id", "Statement"].contains k) then
      some ("Unknown root-level field: \"" ++ k ++ "\"")
    else none)

/-- Step 6 of `validatePolicy` (lines 1079-1081): Id must be a string when
truthy. -/
def idErrors (p : Json) : List String :=
  let i := getKey p "Id"
  if truthyOpt i && !(match i with | some (.str _) => true | _ => false) then
    ["Id field must be a string"]
  else []

/-- The PolicyStructureValidator: embedding of `validatePolicy`
(policy-generator.js lines 1026-1093) applied to an already-parsed JSON
value (the source's step 1, `JSON.parse` of the output pane, is the
caller's concern).  Returns the accumulated (errors, warnings); the source
only renders them into a notification. -/
def validatePolicy (p : Json) : List String × List String :=
  let vc := versionCheck p
  let sc := statementFieldCheck p
  (rootTypeErrors p ++ vc.1 ++ sc.1 ++ idErrors p,
   vc.2 ++ sc.2 ++ unknownRootFieldWarnings p)

example :
    (validatePolicy (.obj [("Version", .str "2012-10-17"), ("Statement", .arr [])])).1 =
      ["Statement array cannot be empty"] := rfl
example :
    (validatePolicy (policyToJson
      ⟨"2012-10-17", [⟨"A1", "Allow", .str "s3:GetObject",
        .str "arn:aws:s3:::my-bucket/*", none⟩]⟩)) = ([], []) := rfl
example :
    (validateStatement (.obj [("Effect", .str "Allow"), ("Principal", .str "*"),
        ("Action", .str "s3:GetObject"), ("Resource", .str "*")]) 0) =
    ([], ["Statement[0]: Principal field is not supported by Impossible Cloud and will be ignored"]) :=
  rfl
example :
    (validateStatement (.obj [("Effect", .str "Allow"), ("Principal", .str ""),
        ("Action", .str "s3:GetObject"), ("Resource", .str "*")]) 0) = ([], []) := rfl
example :
    (validateStatement (.obj [("Effect", .str "Allow"), ("Action", .str "s3:GetObject"),
        ("NotAction", .str "s3:PutObject"), ("Resource", .str "*")]) 0).1 =
    ["Statement[0]: Cannot have both \"Action\" and \"NotAction\""] := rfl


/-! ### Supporting lemmas -/

lemma narrow_broad {c : Char} (h : narrowC c = true) : broadC c = true := by
  simp [broadC, h]

lemma not_mem_of_all_narrow {s : List Char} (h : s.all narrowC = true) {c : Char}
    (hc : narrowC c = false) : c ∉ s := by
  intro hm
  have := List.all_eq_true.mp h c hm
  rw [hc] at this
  exact Bool.false_ne_true this

lemma splitOnChar_of_not_mem {sep : Char} {l : List Char} (h : sep ∉ l) :
    splitOnChar sep l = [l] := by
  induction l with
  | nil => rfl
  | cons c cs ih =>
    have hcs : sep ∉ cs := fun hm => h (List.mem_cons_of_mem _ hm)
    have hc : ¬(c == sep) = true := by
      intro hb
      exact h (by simp [beq_iff_eq.mp hb])
    simp only [splitOnChar, ih hcs]
    rw [if_neg hc]

lemma mem_of_hasSub {n h : List Char} (hs : hasSub n h = true) {c : Char} (hc : c ∈ n) :
    c ∈ h := by
  unfold hasSub at hs
  obtain ⟨t, ht, hp⟩ := List.any_eq_true.mp hs
  obtain ⟨u, hu⟩ := List.isPrefixOf_iff_prefix.mp hp
  obtain ⟨v, hv⟩ := (List.mem_tails _ _).mp ht
  rw [← hv, ← hu]
  exact List.mem_append_right v (List.mem_append_left u hc)

lemma hasSub_false_of_not_mem {n h : List Char} {c : Char} (hcn : c ∈ n) (hch : c ∉ h) :
    hasSub n h = false := by
  by_contra hb
  exact hch (mem_of_hasSub ((Bool.not_eq_false _).mp hb) hcn)

lemma isPrefixOf_false_of_not_mem {n h : List Char} {c : Char} (hcn : c ∈ n) (hch : c ∉ h) :
    n.isPrefixOf h = false := by
  by_contra hb
  obtain ⟨t, ht⟩ := List.isPrefixOf_iff_prefix.mp ((Bool.not_eq_false _).mp hb)
  exact hch (by rw [← ht]; exact List.mem_append_left t hcn)

lemma isSuffixOf_false_of_not_mem {n h : List Char} {c : Char} (hcn : c ∈ n) (hch : c ∉ h) :
    n.isSuffixOf h = false := by
  by_contra hb
  obtain ⟨t, ht⟩ := List.isSuffixOf_iff_suffix.mp ((Bool.not_eq_false _).mp hb)
  exact hch (by rw [← ht]; exact List.mem_append_right t hcn)

/-- C9: every 3-to-63-character string over `[a-z0-9]` (no dot, no hyphen)
is accepted by the bucket-name validator with an empty error list. -/
theorem c9_plain_bucket_names_valid (s : String)
    (h3 : 3 ≤ s.data.length) (h63 : s.data.length ≤ 63)
    (hn : s.data.all narrowC = true) :
    validateBucketName s = { isValid := true, errors := [] } := by
  have hne : s.data ≠ [] := by
    intro h
    rw [h] at h3
    simp at h3
  have hmem : ∀ c ∈ s.data, narrowC c = true := List.all_eq_true.mp hn
  have hdot : '.' ∉ s.data := not_mem_of_all_narrow hn (by decide)
  have hdash : '-' ∉ s.data := not_mem_of_all_narrow hn (by decide)
  have c1 : ¬(s.data.length < 3) := by omega
  have c2 : ¬(s.data.length > 63) := by omega
  have c3 : (!(!s.data.isEmpty && s.data.all broadC)) = false := by
    have h1 : s.data.isEmpty = false := by simpa [List.isEmpty_iff] using hne
    have h2 : s.data.all broadC = true :=
      List.all_eq_true.mpr (fun c hc => narrow_broad (hmem c hc))
    simp [h1, h2]
  have c4 : headNarrow s.data = true := by
    obtain ⟨c, cs, hcc⟩ := List.exists_cons_of_ne_nil hne
    rw [hcc, headNarrow]
    exact hmem c (by rw [hcc]; exact List.mem_cons_self c cs)
  have c5 : lastNarrow s.data = true := by
    rw [lastNarrow, List.getLast?_eq_getLast_of_ne_nil hne]
    exact hmem _ (List.getLast_mem hne)
  have c6 : ipShape s.data = false := by
    rw [ipShape, splitOnChar_of_not_mem hdot]
    rfl
  have c7 : ("xn--".data.isPrefixOf s.data) = false :=
    isPrefixOf_false_of_not_mem (c := '-') (by decide) hdash
  have c8 : ("-s3alias".data.isSuffixOf s.data) = false :=
    isSuffixOf_false_of_not_mem (c := '-') (by decide) hdash
  have c9h : hasSub "..".data s.data = false :=
    hasSub_false_of_not_mem (c := '.') (by decide) hdot
  have c10a : hasSub ".-".data s.data = false :=
    hasSub_false_of_not_mem (c := '.') (by decide) hdot
  have c10b : hasSub "-.".data s.data = false :=
    hasSub_false_of_not_mem (c := '-') (by decide) hdash
  have c11 : s.data.any upperAZ = false := by
    by_contra hb
    obtain ⟨c, hc, hcu⟩ := List.any_eq_true.mp ((Bool.not_eq_false _).mp hb)
    have hh := hmem c hc
    simp [narrowC, lowerAZ, digitC] at hh
    simp [upperAZ] at hcu
    omega
  have c12 : s.data.contains '_' = false := by
    by_contra hb
    exact not_mem_of_all_narrow hn (c := '_') (by decide)
      (by simpa using (Bool.not_eq_false _).mp hb)
  have hlen : s.length = s.data.length := rfl
  simp [validateBucketName, c3, c4, c5, c6, c7, c8, c9h, c10a, c10b, c11, c12,
    if_neg c1, if_neg c2]
  exact ⟨by omega, by omega, not_mem_of_all_narrow hn (by decide)⟩

/-- Witness for `c9_plain_bucket_names_valid` at the concrete input "abc". -/
theorem c9_plain_bucket_names_valid_witness :
    validateBucketName "abc" = { isValid := true, errors := [] } :=
  c9_plain_bucket_names_valid "abc" (by decide) (by decide) (by decide)

/-- C10: on every input, the principal validator's `isValid` flag is `true`
exactly when its error list is empty — on every return path, including all
early returns. -/
theorem c10_principal_isValid_iff_no_errors (p : String) :
    (validatePrincipalARN p).isValid = true ↔ (validatePrincipalARN p).errors = [] := by
  simp only [validatePrincipalARN]
  split
  · simp
  · split
    · simp
    · split
      · simp
      · split
        · split
          · simp
          · simp [List.isEmpty_iff]
        · simp [List.isEmpty_iff]


lemma mem_dropWhile_of_not_pred {p : Char → Bool} {l : List Char} {c : Char}
    (hm : c ∈ l) (hp : p c = false) : c ∈ l.dropWhile p := by
  induction l with
  | nil => cases hm
  | cons a t ih =>
    cases ha : p a with
    | true =>
      rw [List.dropWhile_cons, ha, if_pos rfl]
      rcases List.mem_cons.mp hm with h | h
      · subst h
        rw [hp] at ha
        cases ha
      · exact ih h
    | false =>
      rw [List.dropWhile_cons, ha]
      simpa using hm

lemma mem_jsTrim {s : String} {c : Char} (hm : c ∈ s.data) (hc : jsWhitespace c = false) :
    c ∈ jsTrim s := by
  unfold jsTrim
  rw [List.mem_reverse]
  apply mem_dropWhile_of_not_pred _ hc
  rw [List.mem_reverse]
  exact mem_dropWhile_of_not_pred hm hc

lemma svcDomain_dot_mem {p : String} (h : svcDomainB p = true) : '.' ∈ p.data := by
  rcases Bool.or_eq_true_iff.mp (by simpa [svcDomainB] using h) with h' | h'
  · exact mem_of_hasSub (by simpa [strHasSub] using h') (by decide)
  · exact mem_of_hasSub (by simpa [strHasSub] using h') (by decide)

/-- C2 counterexample: `"a.b"` is non-empty, is not `"*"`, is not 64-hex,
contains neither service-principal domain, does not start with `arn:`, and
is not a bare 12-digit account id — yet the validator accepts it with no
errors and no warnings, where the claim demands an invalid verdict with a
single generic error. -/
theorem c2_counterexample :
    svcDomainB "a.b" = false ∧ isHex64 "a.b" = false ∧ strStarts "a.b" "arn:" = false ∧
    ("a.b".data.length == 12 && "a.b".data.all digitC) = false ∧
    validatePrincipalARN "a.b" = { isValid := true, errors := [], warnings := [] } := by
  decide

/-- C2 (amended): for a non-`"*"`, non-blank, non-hex, non-service-domain,
non-`arn:` input: when it contains no `'.'`, a bare 12-digit string is
accepted with the full-ARN-suggestion warning and anything else draws the
single generic error; when it contains a `'.'`, no branch matches and the
fall-through accepts it with no errors and no warnings. -/
theorem c2_nonarn_amended (p : String)
    (hne : p ≠ "") (htrim : jsTrim p ≠ []) (hstar : p ≠ "*")
    (hhex : isHex64 p = false) (hsvc : svcDomainB p = false)
    (harn : strStarts p "arn:" = false) :
    ('.' ∉ p.data →
      ((p.data.length = 12 ∧ ∀ c ∈ p.data, digitC c = true) →
        validatePrincipalARN p =
          { isValid := true, errors := [],
            warnings := ["Using just an account ID. Consider using full ARN format: arn:aws:iam::123456789012:root"] }) ∧
      (¬(p.data.length = 12 ∧ ∀ c ∈ p.data, digitC c = true) →
        validatePrincipalARN p =
          { isValid := false,
            errors := ["Principal must be \"*\", a valid ARN (arn:aws:... or arn:ipcld:...), canonical user ID (64-char hex), service principal (service.amazonaws.com), or 12-digit account ID"],
            warnings := [] })) ∧
    ('.' ∈ p.data →
      validatePrincipalARN p = { isValid := true, errors := [], warnings := [] }) := by
  have hb1 : (p == "*") = false := beq_eq_false_iff_ne.mpr hstar
  have hb0 : (p == "") = false := beq_eq_false_iff_ne.mpr hne
  have hb2 : (jsTrim p).isEmpty = false := by simpa [List.isEmpty_iff] using htrim
  have hred : validatePrincipalARN p =
      { isValid := (arnOrDigitsChecks p).1.isEmpty, errors := (arnOrDigitsChecks p).1,
        warnings := (arnOrDigitsChecks p).2 } := by
    simp [validatePrincipalARN, hb1, hb0, hb2, hhex, hsvc]
  have hlen : p.length = p.data.length := rfl
  refine ⟨fun hdot => ⟨fun hdig => ?_, fun hdig => ?_⟩, fun hdot => ?_⟩
  · have hpos : (p.data.length == 12 && p.data.all digitC) = true := by
      simp only [beq_iff_eq, Bool.and_eq_true, List.all_eq_true]
      exact hdig
    have heq : arnOrDigitsChecks p =
        ([], ["Using just an account ID. Consider using full ARN format: arn:aws:iam::123456789012:root"]) := by
      simp only [arnOrDigitsChecks, harn]
      rw [if_neg (by simp)]
      rw [if_pos (by simpa using hdot)]
      rw [if_pos hpos]
    rw [hred, heq]
    rfl
  · have hcond : ¬((p.data.length == 12 && p.data.all digitC) = true) := by
      simp only [beq_iff_eq, Bool.and_eq_true, List.all_eq_true]
      exact hdig
    have heq : arnOrDigitsChecks p =
        (["Principal must be \"*\", a valid ARN (arn:aws:... or arn:ipcld:...), canonical user ID (64-char hex), service principal (service.amazonaws.com), or 12-digit account ID"],
         []) := by
      simp only [arnOrDigitsChecks, harn]
      rw [if_neg (by simp)]
      rw [if_pos (by simpa using hdot)]
      rw [if_neg hcond]
    rw [hred, heq]
    rfl
  · have heq : arnOrDigitsChecks p = ([], []) := by
      simp only [arnOrDigitsChecks, harn]
      rw [if_neg (by simp)]
      rw [if_neg (by simpa using hdot)]
    rw [hred, heq]
    rfl

/-- Witness for `c2_nonarn_amended` at the concrete input "123456789012". -/
theorem c2_nonarn_amended_witness :
    validatePrincipalARN "123456789012" =
      { isValid := true, errors := [],
        warnings := ["Using just an account ID. Consider using full ARN format: arn:aws:iam::123456789012:root"] } :=
  ((c2_nonarn_amended "123456789012" (by decide) (by decide) (by decide) (by decide)
    (by decide) (by decide)).1 (by decide)).1 (by decide)

/-- The branch structure exactly as the C3 claim words it (for comparison
with `validatePrincipalARN`): mutually exclusive branches evaluated in the
fixed order wildcard/empty → canonical-id → service-principal → `arn:` →
bare-digits → fallback-error, with the service-principal branch deciding
the verdict alone in both its success and failure cases. -/
def specExclusiveBranches (p : String) : PrincipalVerdict :=
  if p == "*" then
    { isValid := true, errors := [],
      warnings := ["Using \"*\" grants public access - ensure this is intentional for security"] }
  else if p == "" || (jsTrim p).isEmpty then
    { isValid := true, errors := [], warnings := [] }
  else if isHex64 p then
    { isValid := true, errors := [],
      warnings := ["Using canonical user ID - ensure this is an Impossible Cloud canonical ID"] }
  else if svcDomainB p then
    if svcRegexOk p then
      { isValid := true, errors := [],
        warnings := ["⚠ AWS service principals (*.amazonaws.com) may not be supported by Impossible Cloud. Use IAM user/role ARNs instead."] }
    else
      { isValid := false,
        errors := ["Service principal format should be: service-name.amazonaws.com"],
        warnings := [] }
  else
    let rest := arnOrDigitsChecks p
    { isValid := rest.1.isEmpty, errors := rest.1, warnings := rest.2 }

/-- C3 counterexample: `"arn:x.amazonaws.com"` contains `.amazonaws.com`
and starts with `arn:`; the claim says the service-principal branch decides
it alone (one error), but the source falls through and the `arn:` branch
adds a second error. -/
theorem c3_counterexample :
    validatePrincipalARN "arn:x.amazonaws.com" ≠
      specExclusiveBranches "arn:x.amazonaws.com" ∧
    (validatePrincipalARN "arn:x.amazonaws.com").errors.length = 2 ∧
    (specExclusiveBranches "arn:x.amazonaws.com").errors.length = 1 := by
  decide

/-- C3 (amended): the branches are mutually exclusive and evaluated in the
claimed fixed order for every input except a service-domain string failing
the service-principal regex: there the error is recorded and evaluation
falls through, so the `arn:`/bare-digits/fallback errors and warnings
accumulate after it. -/
theorem c3_branches_amended (p : String) :
    (svcDomainB p = false ∨ svcRegexOk p = true →
      validatePrincipalARN p = specExclusiveBranches p) ∧
    (svcDomainB p = true → svcRegexOk p = false →
      validatePrincipalARN p =
        { isValid := false,
          errors := "Service principal format should be: service-name.amazonaws.com" ::
            (arnOrDigitsChecks p).1,
          warnings := (arnOrDigitsChecks p).2 }) := by
  constructor
  · rintro (h | h)
    · simp [validatePrincipalARN, specExclusiveBranches, h]
    · simp [validatePrincipalARN, specExclusiveBranches, h]
  · intro h1 h2
    have hdot : '.' ∈ p.data := svcDomain_dot_mem h1
    have hb1 : (p == "*") = false := by
      apply beq_eq_false_iff_ne.mpr
      rintro rfl
      exact absurd hdot (by decide)
    have hb0 : (p == "") = false := by
      apply beq_eq_false_iff_ne.mpr
      rintro rfl
      exact absurd hdot (by decide)
    have hb2 : (jsTrim p).isEmpty = false := by
      have := mem_jsTrim hdot (by decide)
      simp [List.isEmpty_iff]
      intro he
      rw [he] at this
      cases this
    have hhex : isHex64 p = false := by
      by_contra hb
      have hall := (Bool.and_eq_true_iff.mp ((Bool.not_eq_false _).mp hb)).2
      have := List.all_eq_true.mp hall '.' hdot
      exact absurd this (by decide)
    simp [validatePrincipalARN, hb1, hb0, hb2, hhex, h1, h2]

/-- Witness for `c3_branches_amended` at the concrete input
"arn:aws:iam::123456789012:root" (no service domain, so the exclusive
dispatch agrees with the source). -/
theorem c3_branches_amended_witness :
    validatePrincipalARN "arn:aws:iam::123456789012:root" =
      specExclusiveBranches "arn:aws:iam::123456789012:root" :=
  (c3_branches_amended "arn:aws:iam::123456789012:root").1 (Or.inl (by decide))

/-- A statement's entries with every `Principal`/`NotPrincipal` binding
removed (used to isolate what those fields contribute). -/
def stripPN (entries : List (String × Json)) : List (String × Json) :=
  entries.filter (fun kv => !(kv.1 == "Principal" || kv.1 == "NotPrincipal"))


lemma getKey_stripPN (entries : List (String × Json)) (k : String)
    (h1 : k ≠ "Principal") (h2 : k ≠ "NotPrincipal") :
    getKey (.obj (stripPN entries)) k = getKey (.obj entries) k := by
  simp only [getKey, stripPN]
  induction entries with
  | nil => rfl
  | cons a t ih =>
    cases ha : (a.1 == "Principal" || a.1 == "NotPrincipal") with
    | true =>
      have hka : (k == a.1) = false := by
        rcases Bool.or_eq_true_iff.mp ha with h | h
        · exact beq_eq_false_iff_ne.mpr (by rw [beq_iff_eq.mp h]; exact h1)
        · exact beq_eq_false_iff_ne.mpr (by rw [beq_iff_eq.mp h]; exact h2)
      rw [List.filter_cons_of_neg (by simp [ha])]
      rw [ih]
      cases a with
      | mk a1 a2 =>
        simp only [List.lookup]
        simp only at hka
        rw [hka]
    | false =>
      rw [List.filter_cons_of_pos (by simp [ha])]
      cases a with
      | mk a1 a2 =>
        simp only [List.lookup]
        cases hk : (k == a1)
        · exact ih
        · rfl

lemma getKey_stripPN_self (entries : List (String × Json)) (k : String)
    (hk : k = "Principal" ∨ k = "NotPrincipal") :
    getKey (.obj (stripPN entries)) k = none := by
  simp only [getKey, stripPN]
  induction entries with
  | nil => rfl
  | cons a t ih =>
    cases ha : (a.1 == "Principal" || a.1 == "NotPrincipal") with
    | true =>
      rw [List.filter_cons_of_neg (by simp [ha])]
      exact ih
    | false =>
      rw [List.filter_cons_of_pos (by simp [ha])]
      cases a with
      | mk a1 a2 =>
        simp only [List.lookup]
        have hka : (k == a1) = false := by
          apply beq_eq_false_iff_ne.mpr
          rintro rfl
          rcases hk with h | h <;> simp [h] at ha
        rw [hka]
        exact ih

lemma unknownStmtFieldWarnings_stripPN (pfx : String) (entries : List (String × Json)) :
    unknownStmtFieldWarnings pfx (.obj (stripPN entries)) =
      unknownStmtFieldWarnings pfx (.obj entries) := by
  simp only [unknownStmtFieldWarnings, keysOf, stripPN]
  induction entries with
  | nil => rfl
  | cons a t ih =>
    cases ha : (a.1 == "Principal" || a.1 == "NotPrincipal") with
    | true =>
      rw [List.filter_cons_of_neg (by simp [ha])]
      rw [ih]
      have hval : a.1 ∈ validStmtFields := by
        rcases Bool.or_eq_true_iff.mp ha with h | h
        · rw [beq_iff_eq.mp h]; decide
        · rw [beq_iff_eq.mp h]; decide
      rw [List.map_cons, List.filterMap_cons]
      simp [hval]
    | false =>
      rw [List.filter_cons_of_pos (by simp [ha])]
      rw [List.map_cons, List.map_cons, List.filterMap_cons, List.filterMap_cons, ih]

/-- C7 counterexample: a statement whose `Principal` key is present with
the (falsy) value `""` draws no warning at all — the claim's "exactly one
warning regardless of the field's value" fails, since the source only
pushes the warning when `stmt.Principal` is truthy. -/
theorem c7_counterexample :
    validateStatement (.obj [("Effect", .str "Allow"), ("Principal", .str ""),
      ("Action", .str "s3:GetObject"), ("Resource", .str "*")]) 0 = ([], []) := rfl

/-- C7 (amended): a `Principal`/`NotPrincipal` binding never contributes an
error (the errors equal those of the statement with the bindings removed),
and contributes exactly one ignored-field warning when its value is truthy
and nothing when it is falsy (`null`, `false`, `0`, `""`); no recursive
validation of the value is performed. -/
theorem c7_principal_amended (entries : List (String × Json)) (idx : Nat) :
    (validateStatement (.obj entries) idx).1 =
      (validateStatement (.obj (stripPN entries)) idx).1 ∧
    (validateStatement (.obj entries) idx).2 =
      (if truthyOpt (getKey (.obj entries) "Principal") then
        [("Statement[" ++ Nat.repr idx ++ "]") ++
          ": Principal field is not supported by Impossible Cloud and will be ignored"]
       else []) ++
      (if truthyOpt (getKey (.obj entries) "NotPrincipal") then
        [("Statement[" ++ Nat.repr idx ++ "]") ++
          ": NotPrincipal field is not supported by Impossible Cloud and will be ignored"]
       else []) ++
      (validateStatement (.obj (stripPN entries)) idx).2 := by
  have hsid : sidErrors ("Statement[" ++ Nat.repr idx ++ "]") (.obj (stripPN entries)) =
      sidErrors ("Statement[" ++ Nat.repr idx ++ "]") (.obj entries) := by
    simp only [sidErrors, getKey_stripPN entries "Sid" (by decide) (by decide)]
  have heff : effectErrors ("Statement[" ++ Nat.repr idx ++ "]") (.obj (stripPN entries)) =
      effectErrors ("Statement[" ++ Nat.repr idx ++ "]") (.obj entries) := by
    simp only [effectErrors, getKey_stripPN entries "Effect" (by decide) (by decide)]
  have hab : actionBlock ("Statement[" ++ Nat.repr idx ++ "]") (.obj (stripPN entries)) =
      actionBlock ("Statement[" ++ Nat.repr idx ++ "]") (.obj entries) := by
    simp only [actionBlock, getKey_stripPN entries "Action" (by decide) (by decide),
      getKey_stripPN entries "NotAction" (by decide) (by decide)]
  have hrb : resourceBlock ("Statement[" ++ Nat.repr idx ++ "]") (.obj (stripPN entries)) =
      resourceBlock ("Statement[" ++ Nat.repr idx ++ "]") (.obj entries) := by
    simp only [resourceBlock, getKey_stripPN entries "Resource" (by decide) (by decide),
      getKey_stripPN entries "NotResource" (by decide) (by decide)]
  have hcond : conditionBlockErrors ("Statement[" ++ Nat.repr idx ++ "]")
        (.obj (stripPN entries)) =
      conditionBlockErrors ("Statement[" ++ Nat.repr idx ++ "]") (.obj entries) := by
    simp only [conditionBlockErrors, getKey_stripPN entries "Condition" (by decide) (by decide)]
  have hpw : principalWarnings ("Statement[" ++ Nat.repr idx ++ "]") (.obj (stripPN entries)) =
      [] := by
    simp [principalWarnings, getKey_stripPN_self entries "Principal" (Or.inl rfl), truthyOpt]
  have hnpw : notPrincipalWarnings ("Statement[" ++ Nat.repr idx ++ "]")
      (.obj (stripPN entries)) = [] := by
    simp [notPrincipalWarnings, getKey_stripPN_self entries "NotPrincipal" (Or.inr rfl),
      truthyOpt]
  constructor
  · simp only [validateStatement, hsid, heff, hab, hrb, hcond]
  · simp only [validateStatement, hab, hrb, hpw, hnpw, unknownStmtFieldWarnings_stripPN]
    simp only [principalWarnings, notPrincipalWarnings]
    simp [List.append_assoc]

lemma condKeysCheck_eq_nil_iff (pfx : String) (c : Json) (ks : List String) :
    condKeysCheck pfx c ks = [] ↔ ∀ k ∈ ks, condKeyCheck pfx c k = [] := by
  induction ks with
  | nil => simp [condKeysCheck]
  | cons k t ih =>
    simp only [condKeysCheck, List.append_eq_nil, ih, List.mem_cons]
    constructor
    · rintro ⟨h1, h2⟩ x (rfl | hx)
      · exact h1
      · exact h2 x hx
    · intro h
      exact ⟨h k (Or.inl rfl), fun x hx => h x (Or.inr hx)⟩

lemma condKeyCheck_eq_nil_iff (pfx : String) (c : Json) (k : String) :
    condKeyCheck pfx c k = [] ↔
      validConditionOperators.contains (stripSetOp k) = true ∧
        (∃ b, getKey c k = some b ∧ isPlainObj b = true) := by
  simp only [condKeyCheck, List.append_eq_nil]
  constructor
  · rintro ⟨h1, h2⟩
    constructor
    · by_contra hb
      rw [if_pos (by simpa using hb)] at h1
      cases h1
    · cases hg : getKey c k with
      | none =>
        rw [hg] at h2
        rw [if_neg (by simp)] at h2
        cases h2
      | some b =>
        rw [hg] at h2
        refine ⟨b, rfl, ?_⟩
        by_contra hb
        rw [if_neg (by simpa using hb)] at h2
        cases h2
  · rintro ⟨h1, b, hg, hb⟩
    constructor
    · rw [if_neg (by simpa using h1)]
    · rw [hg, if_pos (by simpa using hb)]

/-- C8: the condition validator errors exactly on a non-object value (one
error), and otherwise errors exactly on operator keys that are unrecognized
after `ForAllValues:`/`ForAnyValue:` stripping or whose value block is not
a plain object; in particular `StringLike` over `s3:prefix` passes with
zero errors and `BogusOperator` with an object block draws exactly one
error. -/
theorem c8_condition_validation (pfx : String) (c : Json) :
    (isPlainObj c = false → validateCondition pfx c = [pfx ++ ": Must be an object"]) ∧
    (isPlainObj c = true →
      (validateCondition pfx c = [] ↔
        ∀ k ∈ keysOf c, validConditionOperators.contains (stripSetOp k) = true ∧
          (∃ b, getKey c k = some b ∧ isPlainObj b = true))) ∧
    validateCondition "Statement[0].Condition"
      (.obj [("StringLike", .obj [("s3:prefix", .arr [.str "a/*"])])]) = [] ∧
    (validateCondition "Statement[0].Condition" (.obj [("BogusOperator", .obj [])])).length
      = 1 := by
  refine ⟨fun h => ?_, fun h => ?_, rfl, by decide⟩
  · simp [validateCondition, h]
  · rw [show validateCondition pfx c = condKeysCheck pfx c (keysOf c) by
      simp [validateCondition, h]]
    rw [condKeysCheck_eq_nil_iff]
    constructor
    · intro hk k hmem
      exact (condKeyCheck_eq_nil_iff pfx c k).mp (hk k hmem)
    · intro hk k hmem
      exact (condKeyCheck_eq_nil_iff pfx c k).mpr (hk k hmem)

/-- Witness for `c8_condition_validation` at the non-object value `3`. -/
theorem c8_condition_validation_witness :
    validateCondition "P" (.num 3) = ["P: Must be an object"] :=
  (c8_condition_validation "P" (.num 3)).1 rfl

/-- The generated document with every statement's `Sid` blanked (used to
state what is and is not clock-dependent). -/
def clearSid (p : Policy) : Policy :=
  { p with Statement := p.Statement.map (fun st => { st with Sid := "" }) }

/-- C6 counterexample: two assembler calls with identical bucket, effect,
path, actions, and condition but different `Date.now()` readings produce
different documents — the `Sid` embeds the clock, so the output is not a
function of the explicit inputs alone. -/
theorem c6_counterexample :
    generatePolicy "b" "Allow" "" ["s3:GetObject"] .blank 0 ≠
      generatePolicy "b" "Allow" "" ["s3:GetObject"] .blank 1 := by
  intro h
  have h1 : generatePolicy "b" "Allow" "" ["s3:GetObject"] CondInput.blank 0 =
      .ok { Version := "2012-10-17"
            Statement := [{ Sid := "GeneratedPolicy0", Effect := "Allow",
                            Action := .str "s3:GetObject",
                            Resource := .str "arn:aws:s3:::b/*", Condition := none }] } := rfl
  have h2 : generatePolicy "b" "Allow" "" ["s3:GetObject"] CondInput.blank 1 =
      .ok { Version := "2012-10-17"
            Statement := [{ Sid := "GeneratedPolicy1", Effect := "Allow",
                            Action := .str "s3:GetObject",
                            Resource := .str "arn:aws:s3:::b/*", Condition := none }] } := rfl
  rw [h1, h2] at h
  have h3 := congrArg (fun e => match e with
    | Except.ok (d : Policy) => d.Statement.map Statement.Sid
    | Except.error _ => []) h
  simp only [List.map_cons, List.map_nil] at h3
  have : ("GeneratedPolicy0" : String) = "GeneratedPolicy1" := (List.cons.inj h3).1
  exact absurd this (by decide)

lemma digitChar_toNat {d : Nat} (h : d < 10) : (Nat.digitChar d).toNat = 48 + d := by
  interval_cases d <;> rfl

lemma toDigitsCore_eq_digits (fuel : Nat) :
    ∀ n, n < fuel → 0 < n → ∀ ds : List Char,
      Nat.toDigitsCore 10 fuel n ds =
        ((Nat.digits 10 n).map Nat.digitChar).reverse ++ ds := by
  induction fuel with
  | zero => intro n h _ _; exact absurd h (by omega)
  | succ fuel ih =>
    intro n hlt hpos ds
    rw [Nat.toDigitsCore]
    rw [Nat.digits_def' (by norm_num : 1 < 10) hpos]
    by_cases hq : n / 10 = 0
    · rw [if_pos hq, hq]
      simp
    · rw [if_neg hq]
      have hq' : 0 < n / 10 := Nat.pos_of_ne_zero hq
      have hlt' : n / 10 < fuel := by omega
      rw [ih (n / 10) hlt' hq' _]
      simp [List.reverse_cons, List.append_assoc]

lemma natRepr_pos_eq {n : Nat} (h : 0 < n) :
    Nat.repr n = (((Nat.digits 10 n).map Nat.digitChar).reverse).asString := by
  show (Nat.toDigits 10 n).asString = _
  rw [Nat.toDigits, toDigitsCore_eq_digits (n + 1) n (by omega) h []]
  rw [List.append_nil]

lemma map_digitChar_inv : ∀ l : List Nat, (∀ d ∈ l, d < 10) →
    (l.map Nat.digitChar).map (fun c => c.toNat - 48) = l
  | [], _ => rfl
  | d :: l, h => by
    simp only [List.map_cons, List.cons.injEq]
    constructor
    · rw [digitChar_toNat (h d (.head _))]; omega
    · exact map_digitChar_inv l (fun e he => h e (.tail _ he))

lemma natRepr_pos_ne_zero_repr {n : Nat} (hn : 0 < n) : Nat.repr n ≠ Nat.repr 0 := by
  intro h
  rw [natRepr_pos_eq hn] at h
  have hd : ((Nat.digits 10 n).map Nat.digitChar).reverse = ['0'] := congrArg String.data h
  have hrev : (Nat.digits 10 n).map Nat.digitChar = ['0'] := by
    have := congrArg List.reverse hd
    simpa using this
  have hdig : Nat.digits 10 n = [0] := by
    have hlt : ∀ d ∈ Nat.digits 10 n, d < 10 :=
      fun d hd => Nat.digits_lt_base (by norm_num) hd
    have hinv := map_digitChar_inv (Nat.digits 10 n) hlt
    rw [hrev] at hinv
    simpa using hinv.symm
  have hne : Nat.digits 10 n ≠ [] := Nat.digits_ne_nil_iff_ne_zero.mpr hn.ne'
  have h0 : (Nat.digits 10 n).getLast hne = 0 := by
    have he := List.getLast?_eq_getLast_of_ne_nil hne
    have he2 : (Nat.digits 10 n).getLast? = some 0 := by rw [hdig]; rfl
    exact Option.some.inj (he.symm.trans he2)
  exact Nat.getLast_digit_ne_zero 10 hn.ne' h0

/-- `Nat.repr` (the decimal rendering used for the `Date.now()` reading in
the generated `Sid`) is injective: distinct clock readings give distinct
decimal strings. -/
lemma natRepr_inj {m n : Nat} (h : Nat.repr m = Nat.repr n) : m = n := by
  rcases Nat.eq_zero_or_pos m with hm | hm
  · rcases Nat.eq_zero_or_pos n with hn | hn
    · omega
    · exact absurd (hm ▸ h.symm) (natRepr_pos_ne_zero_repr hn)
  · rcases Nat.eq_zero_or_pos n with hn | hn
    · exact absurd (hn ▸ h) (natRepr_pos_ne_zero_repr hm)
    · rw [natRepr_pos_eq hm, natRepr_pos_eq hn] at h
      have hd : ((Nat.digits 10 m).map Nat.digitChar).reverse =
          ((Nat.digits 10 n).map Nat.digitChar).reverse := congrArg String.data h
      have hmap : (Nat.digits 10 m).map Nat.digitChar =
          (Nat.digits 10 n).map Nat.digitChar := List.reverse_injective hd
      have hdig : Nat.digits 10 m = Nat.digits 10 n := by
        have h1 := map_digitChar_inv (Nat.digits 10 m)
          (fun d hd => Nat.digits_lt_base (by norm_num) hd)
        have h2 := map_digitChar_inv (Nat.digits 10 n)
          (fun d hd => Nat.digits_lt_base (by norm_num) hd)
        rw [← h1, ← h2, hmap]
      calc m = Nat.ofDigits 10 (Nat.digits 10 m) := (Nat.ofDigits_digits 10 m).symm
        _ = Nat.ofDigits 10 (Nat.digits 10 n) := by rw [hdig]
        _ = n := Nat.ofDigits_digits 10 n

lemma string_append_left_cancel {a b c : String} (h : a ++ b = a ++ c) : b = c := by
  have hd : a.data ++ b.data = a.data ++ c.data := congrArg String.data h
  exact congrArg String.mk (List.append_cancel_left hd)

/-- C6 (amended): every engine component in this embedding is a Lean
function of its explicit inputs, hence deterministic; for the assembler,
everything except the `Sid` is independent of the clock: two calls with
identical bucket, effect, path, actions and condition agree after blanking
`Sid`, and whenever both calls return documents, the documents are fully
identical exactly when the `Date.now()` readings coincide. -/
theorem c6_purity_amended (bucketName effect path : String) (actions : List String)
    (cond : CondInput) (n1 n2 : Nat) :
    ((generatePolicy bucketName effect path actions cond n1).map clearSid =
      (generatePolicy bucketName effect path actions cond n2).map clearSid) ∧
    (∀ d1 d2, generatePolicy bucketName effect path actions cond n1 = .ok d1 →
      generatePolicy bucketName effect path actions cond n2 = .ok d2 →
      (d1 = d2 ↔ n1 = n2)) := by
  constructor
  · simp only [generatePolicy]
    split
    · rfl
    · cases cond <;> simp [clearSid, Except.map, List.map]
  · intro d1 d2 h1 h2
    cases he : actions.isEmpty with
    | true =>
      rw [show actions = [] by simpa [List.isEmpty_iff] using he] at h1
      simp [generatePolicy] at h1
    | false =>
      cases cond with
      | invalid => simp [generatePolicy, he] at h1
      | blank =>
        simp [generatePolicy, he] at h1 h2
        subst h1
        subst h2
        constructor
        · intro hdd
          have hsid : ("GeneratedPolicy" ++ Nat.repr n1) =
              "GeneratedPolicy" ++ Nat.repr n2 := by
            have := congrArg (fun p : Policy => p.Statement.map Statement.Sid) hdd
            simpa using this
          exact natRepr_inj (string_append_left_cancel hsid)
        · rintro rfl
          rfl
      | parsed j =>
        simp [generatePolicy, he] at h1 h2
        subst h1
        subst h2
        constructor
        · intro hdd
          have hsid : ("GeneratedPolicy" ++ Nat.repr n1) =
              "GeneratedPolicy" ++ Nat.repr n2 := by
            have := congrArg (fun p : Policy => p.Statement.map Statement.Sid) hdd
            simpa using this
          exact natRepr_inj (string_append_left_cancel hsid)
        · rintro rfl
          rfl

/-- Witness for `c6_purity_amended`: at clock readings 0 and 1 the two
generated documents are equal iff 0 = 1 (i.e. they differ). -/
theorem c6_purity_amended_witness :
    (({ Version := "2012-10-17",
        Statement := [{ Sid := "GeneratedPolicy0", Effect := "Allow",
                        Action := .str "s3:GetObject",
                        Resource := .str "arn:aws:s3:::b/*",
                        Condition := none }] } : Policy) =
      { Version := "2012-10-17",
        Statement := [{ Sid := "GeneratedPolicy1", Effect := "Allow",
                        Action := .str "s3:GetObject",
                        Resource := .str "arn:aws:s3:::b/*",
                        Condition := none }] }) ↔ (0 : Nat) = 1 :=
  (c6_purity_amended "b" "Allow" "" ["s3:GetObject"] .blank 0 1).2 _ _ rfl rfl

/-- C5: the assembler fails — returning an error value and no document —
exactly when the merged action list is empty (`EmptyActionSet`, checked
first) or the condition text fails to parse (`InvalidConditionJSON`); in
every other case it returns a complete document, and with blank condition
text the statement carries no `Condition` entry at all. -/
theorem c5_assembler_failure_modes (bucketName effect path : String)
    (actions : List String) (cond : CondInput) (now : Nat) :
    (actions = [] →
      generatePolicy bucketName effect path actions cond now = .error .EmptyActionSet) ∧
    (actions ≠ [] → cond = .invalid →
      generatePolicy bucketName effect path actions cond now = .error .InvalidConditionJSON) ∧
    ((∃ doc, generatePolicy bucketName effect path actions cond now = .ok doc) ↔
      actions ≠ [] ∧ cond ≠ .invalid) ∧
    (∀ doc, generatePolicy bucketName effect path actions cond now = .ok doc →
      cond = .blank → doc.Statement.map Statement.Condition = [none]) := by
  refine ⟨?_, ?_, ?_, ?_⟩
  · intro h
    subst h
    rfl
  · intro h1 h2
    subst h2
    have he : actions.isEmpty = false := by simpa [List.isEmpty_iff] using h1
    simp [generatePolicy, he]
  · constructor
    · rintro ⟨doc, hd⟩
      cases he : actions.isEmpty with
      | true =>
        rw [show actions = [] by simpa [List.isEmpty_iff] using he] at hd
        simp [generatePolicy] at hd
      | false =>
        refine ⟨by simpa [List.isEmpty_iff] using he, ?_⟩
        rintro rfl
        simp [generatePolicy, he] at hd
    · rintro ⟨h1, h2⟩
      have he : actions.isEmpty = false := by simpa [List.isEmpty_iff] using h1
      cases cond with
      | blank =>
        exact ⟨{ Version := "2012-10-17",
                 Statement := [{ Sid := "GeneratedPolicy" ++ Nat.repr now, Effect := effect,
                                 Action := collapseStr actions,
                                 Resource := collapseStr
                                   (buildResources bucketName (effectivePath path) actions),
                                 Condition := none }] }, by simp [generatePolicy, he]⟩
      | invalid => exact absurd rfl h2
      | parsed j =>
        exact ⟨{ Version := "2012-10-17",
                 Statement := [{ Sid := "GeneratedPolicy" ++ Nat.repr now, Effect := effect,
                                 Action := collapseStr actions,
                                 Resource := collapseStr
                                   (buildResources bucketName (effectivePath path) actions),
                                 Condition := some j }] }, by simp [generatePolicy, he]⟩
  · intro doc hd hc
    subst hc
    cases he : actions.isEmpty with
    | true =>
      rw [show actions = [] by simpa [List.isEmpty_iff] using he] at hd
      simp [generatePolicy] at hd
    | false =>
      simp [generatePolicy, he] at hd
      rw [← hd]
      rfl

/-- Witness for `c5_assembler_failure_modes`: a bad-JSON condition with a
non-empty action list fails with `InvalidConditionJSON`. -/
theorem c5_assembler_failure_modes_witness :
    generatePolicy "b" "Allow" "" ["s3:GetObject"] .invalid 0 =
      .error .InvalidConditionJSON :=
  (c5_assembler_failure_modes "b" "Allow" "" ["s3:GetObject"] .invalid 0).2.1
    (by decide) rfl

lemma str_ne_of_data_length_ne {a b : String} (h : a.data.length ≠ b.data.length) :
    a ≠ b := fun he => h (he ▸ rfl)

lemma str_data_append (a b : String) : (a ++ b).data = a.data ++ b.data := rfl

/-- C4 counterexample: with resource path `*` and an action list triggering
neither resource condition (no `Object` substring, no bucket-scoped
action), the fallback emits exactly the object-level ARN
`arn:aws:s3:::<bucket>/<path>` even though no action contains `Object` —
the claimed if-and-only-if fails in the fallback case. -/
theorem c4_counterexample :
    (generatePolicy "b" "Allow" "*" ["foo:bar"] .blank 0).map
        (fun d => d.Statement.map Statement.Resource) =
      .ok [Json.str "arn:aws:s3:::b/*"] ∧
    ("arn:aws:s3:::" ++ "b" ++ "/" ++ effectivePath "*") ∈
      buildResources "b" (effectivePath "*") ["foo:bar"] ∧
    needsObjectResource ["foo:bar"] = false ∧
    needsBucketResource ["foo:bar"] = false := by
  refine ⟨rfl, by decide, by decide, by decide⟩

/-- C4 (amended): for every successful assembler call, the statement's
`Resource` is the collapsed `buildResources` list; the bucket-level ARN
appears in that list exactly when some action is `s3:ListBucket` or starts
with `s3:GetBucket`/`s3:PutBucket`; the object-level ARN
`arn:aws:s3:::<bucket>/<path>` appears exactly when some action contains
`Object`, provided some action triggers one of the two resource forms or
the effective path differs from `*` (in the fallback case `Resource` is
exactly `[arn:aws:s3:::<bucket>/*]`, which coincides with the object-level
ARN when the path is `*`); when both forms are present the bucket-level
ARN comes first. -/
theorem c4_resources_amended (bucketName effect path : String) (actions : List String)
    (cond : CondInput) (now : Nat) (doc : Policy)
    (hok : generatePolicy bucketName effect path actions cond now = .ok doc) :
    (doc.Statement.map Statement.Resource =
      [collapseStr (buildResources bucketName (effectivePath path) actions)]) ∧
    (("arn:aws:s3:::" ++ bucketName) ∈ buildResources bucketName (effectivePath path) actions ↔
      needsBucketResource actions = true) ∧
    ((needsBucketResource actions = true ∨ needsObjectResource actions = true ∨
        effectivePath path ≠ "*") →
      (("arn:aws:s3:::" ++ bucketName ++ "/" ++ effectivePath path) ∈
          buildResources bucketName (effectivePath path) actions ↔
        needsObjectResource actions = true)) ∧
    (needsBucketResource actions = false → needsObjectResource actions = false →
      buildResources bucketName (effectivePath path) actions =
        ["arn:aws:s3:::" ++ bucketName ++ "/*"]) ∧
    (needsBucketResource actions = true → needsObjectResource actions = true →
      buildResources bucketName (effectivePath path) actions =
        ["arn:aws:s3:::" ++ bucketName, "arn:aws:s3:::" ++ bucketName ++ "/" ++
          effectivePath path]) := by
  have hne1 : ("arn:aws:s3:::" ++ bucketName) ≠
      ("arn:aws:s3:::" ++ bucketName ++ "/" ++ effectivePath path) := by
    apply str_ne_of_data_length_ne
    simp only [str_data_append, List.length_append, List.length_cons, List.length_nil]
    omega
  have hne2 : ("arn:aws:s3:::" ++ bucketName) ≠
      ("arn:aws:s3:::" ++ bucketName ++ "/*") := by
    apply str_ne_of_data_length_ne
    simp only [str_data_append, List.length_append, List.length_cons, List.length_nil]
    omega
  refine ⟨?_, ?_, ?_, ?_, ?_⟩
  · have he : actions.isEmpty = false := by
      cases he : actions.isEmpty with
      | true =>
        rw [show actions = [] by simpa [List.isEmpty_iff] using he] at hok
        simp [generatePolicy] at hok
      | false => rfl
    cases cond with
    | blank =>
      simp [generatePolicy, he] at hok
      rw [← hok]
      rfl
    | invalid => simp [generatePolicy, he] at hok
    | parsed j =>
      simp [generatePolicy, he] at hok
      rw [← hok]
      rfl
  · cases hB : needsBucketResource actions with
    | true =>
      cases hO : needsObjectResource actions <;>
        simp [buildResources, hB, hO]
    | false =>
      cases hO : needsObjectResource actions with
      | true => simp [buildResources, hB, hO, hne1]
      | false => simp [buildResources, hB, hO, hne2]
  · intro hcase
    cases hB : needsBucketResource actions with
    | true =>
      cases hO : needsObjectResource actions with
      | true => simp [buildResources, hB, hO]
      | false => simp [buildResources, hB, hO, hne1.symm]
    | false =>
      cases hO : needsObjectResource actions with
      | true => simp [buildResources, hB, hO]
      | false =>
        have hpath : effectivePath path ≠ "*" := by
          rcases hcase with h | h | h
          · rw [hB] at h; cases h
          · rw [hO] at h; cases h
          · exact h
        have : ("arn:aws:s3:::" ++ bucketName ++ "/" ++ effectivePath path) ≠
            ("arn:aws:s3:::" ++ bucketName ++ "/*") := by
          intro he
          apply hpath
          have hd := congrArg String.data he
          simp only [str_data_append, List.append_assoc] at hd
          have h2 := List.append_cancel_left (List.append_cancel_left hd)
          have h3 : (effectivePath path).data = ['*'] := by
            have h4 : ('/' :: (effectivePath path).data) = ['/', '*'] := by
              simpa using h2
            exact (List.cons.inj h4).2
          calc effectivePath path = String.mk (effectivePath path).data := rfl
            _ = "*" := by rw [h3]
        simp [buildResources, hB, hO, this]
  · intro hB hO
    simp [buildResources, hB, hO]
  · intro hB hO
    simp [buildResources, hB, hO]

/-- Witness for `c4_resources_amended`: a successful call with both a
bucket-scoped and an object action produces both ARNs, bucket-level first. -/
theorem c4_resources_amended_witness :
    buildResources "b" (effectivePath "") ["s3:ListBucket", "s3:GetObject"] =
      ["arn:aws:s3:::" ++ "b",
       "arn:aws:s3:::" ++ "b" ++ "/" ++ effectivePath ""] :=
  (c4_resources_amended "b" "Allow" "" ["s3:ListBucket", "s3:GetObject"] .blank 0
    ⟨"2012-10-17",
     [⟨"GeneratedPolicy0", "Allow", .arr [.str "s3:ListBucket", .str "s3:GetObject"],
       .arr [.str "arn:aws:s3:::b", .str "arn:aws:s3:::b/*"], none⟩]⟩ rfl).2.2.2.2 rfl rfl

lemma not_mem_of_all {pred : Char → Bool} {s : List Char} (h : s.all pred = true) {c : Char}
    (hc : pred c = false) : c ∉ s := by
  intro hm
  have := List.all_eq_true.mp h c hm
  rw [hc] at this
  exact Bool.false_ne_true this

lemma if_seg_prop {c : Prop} [Decidable c] {m : List String}
    (h : (if c then m else []) = []) (hm : m ≠ []) : ¬c := by
  intro hc
  rw [if_pos hc] at h
  exact hm h

lemma if_seg_bool {c : Bool} {m : List String}
    (h : (if c then m else []) = []) (hm : m ≠ []) : c = false := by
  cases hc : c
  · rfl
  · rw [hc, if_pos rfl] at h
    exact absurd h hm

lemma str_ext {a b : String} (h : a.data = b.data) : a = b := by
  calc a = String.mk a.data := rfl
    _ = String.mk b.data := by rw [h]
    _ = b := rfl

lemma str_assoc (a b c : String) : (a ++ b) ++ c = a ++ (b ++ c) :=
  str_ext (by simp only [str_data_append, List.append_assoc])

lemma digitChar_alnum {m : Nat} (h : m < 10) : alnumC (Nat.digitChar m) = true := by
  interval_cases m <;> decide

lemma toDigitsCore_all_alnum (fuel : Nat) :
    ∀ (n : Nat) (ds : List Char), ds.all alnumC = true →
      (Nat.toDigitsCore 10 fuel n ds).all alnumC = true := by
  induction fuel with
  | zero => intro n ds h; exact h
  | succ f ih =>
    intro n ds h
    have hd : alnumC (Nat.digitChar (n % 10)) = true :=
      digitChar_alnum (Nat.mod_lt _ (by omega))
    simp only [Nat.toDigitsCore]
    split
    · simp [hd, h]
    · exact ih _ _ (by simp [hd, h])

lemma natRepr_all_alnum (n : Nat) : (Nat.repr n).data.all alnumC = true :=
  toDigitsCore_all_alnum (n + 1) n [] rfl

lemma hasSub_cons (n : List Char) (c : Char) (l : List Char) :
    hasSub n (c :: l) = (n.isPrefixOf (c :: l) || hasSub n l) := by
  simp [hasSub, List.tails]

lemma no_doubleslash_append (bs rs : List Char) (hb : '/' ∉ bs)
    (hr1 : rs.head? ≠ some '/') (hr2 : hasSub "//".data rs = false) :
    hasSub "//".data (bs ++ '/' :: rs) = false := by
  induction bs with
  | nil =>
    simp only [List.nil_append]
    rw [hasSub_cons, hr2]
    have : ("//".data).isPrefixOf ('/' :: rs) = false := by
      show (['/', '/'] : List Char).isPrefixOf ('/' :: rs) = false
      cases rs with
      | nil => rfl
      | cons a t =>
        cases ha : (('/' : Char) == a) with
        | true =>
          exact absurd (by rw [beq_iff_eq.mp ha]; rfl :
            (a :: t : List Char).head? = some '/') hr1
        | false =>
          show (('/' == '/') && (['/'] : List Char).isPrefixOf (a :: t)) = false
          show (('/' == '/') && (('/' == a) && ([] : List Char).isPrefixOf t)) = false
          rw [ha]
          rfl
    rw [this]
    rfl
  | cons b bs' ih =>
    have hbne : ('/' : Char) ∉ bs' := fun hm => hb (List.mem_cons_of_mem _ hm)
    have hbb : (('/' : Char) == b) = false := by
      apply beq_eq_false_iff_ne.mpr
      intro he
      exact hb (by rw [he]; exact List.mem_cons_self _ _)
    simp only [List.cons_append]
    rw [hasSub_cons, ih hbne]
    have : ("//".data).isPrefixOf (b :: (bs' ++ '/' :: rs)) = false := by
      show (('/' == b) && (['/'] : List Char).isPrefixOf (bs' ++ '/' :: rs)) = false
      rw [hbb]
      rfl
    rw [this]
    rfl

lemma jsToList_collapseStr {l : List String} (h : l ≠ []) :
    jsToList (collapseStr l) = l.map .str := by
  match l with
  | [] => exact absurd rfl h
  | [a] => rfl
  | a :: b :: t => rfl

lemma truthy_collapseStr {l : List String} (h : l ≠ []) (ha : ∀ a ∈ l, a ≠ "") :
    truthy (collapseStr l) = true := by
  match l with
  | [] => exact absurd rfl h
  | [a] =>
    simp only [collapseStr, truthy]
    simp [ha a (List.mem_singleton.mpr rfl)]
  | a :: b :: t => rfl

lemma actionItemsCheck_errors_nil (pfx : String) (l : List String)
    (h : ∀ a ∈ l, ':' ∈ a.data) : ∀ i, (actionItemsCheck pfx i (l.map .str)).1 = [] := by
  induction l with
  | nil => intro i; rfl
  | cons a t ih =>
    intro i
    have hc : (a.data.contains ':') = true := by
      simpa using h a (List.mem_cons_self _ _)
    have hhead : (actionItemCheck pfx i (.str a)).1 = [] := by
      simp only [actionItemCheck, hc]
      rw [if_neg (by simp)]
      split
      · rfl
      · split
        · rfl
        · rfl
    simp only [List.map_cons, actionItemsCheck, hhead,
      ih (fun x hx => h x (List.mem_cons_of_mem _ hx)) (i + 1)]
    rfl

lemma resourceItemCheck_errors_nil (pfx : String) (i : Nat) (rest : String)
    (hne : rest.data ≠ [])
    (hss : hasSub "//".data rest.data = false)
    (hlen : ('/' ∉ rest.data) → rest.data.length ≤ 63) :
    (resourceItemCheck pfx i (.str ("arn:aws:s3:::" ++ rest))).1 = [] := by
  have hdrop : ("arn:aws:s3:::" ++ rest).data.drop 13 = rest.data := by
    show ("arn:aws:s3:::".data ++ rest.data).drop 13 = rest.data
    rw [show (13 : Nat) = ("arn:aws:s3:::".data).length from rfl]
    exact List.drop_left _ _
  have hstarts : strStarts ("arn:aws:s3:::" ++ rest) "arn:aws:s3:::" = true := by
    apply List.isPrefixOf_iff_prefix.mpr
    exact ⟨rest.data, rfl⟩
  simp only [resourceItemCheck, hstarts, hdrop]
  rw [if_neg (by simp)]
  rw [if_pos trivial]
  simp only [List.append_eq_nil]
  refine ⟨⟨?_, ?_⟩, ?_⟩
  · rw [if_neg (by simpa [List.isEmpty_iff] using hne)]
  · rw [if_neg (by simp [hss])]
  · cases hp : rest.data.contains '/' with
    | true => simp
    | false =>
      have hle : rest.data.length ≤ 63 := hlen (by simpa using hp)
      have hd : (decide (63 < rest.data.length)) = false := decide_eq_false (by omega)
      rw [if_neg (by rw [hd]; simp)]

lemma bucket_isValid_iff (b : String) :
    (validateBucketName b).isValid = true ↔ (validateBucketName b).errors = [] := by
  simp only [validateBucketName]
  simp [List.isEmpty_iff]

lemma bucket_valid_facts {b : String} (h : (validateBucketName b).isValid = true) :
    b.data ≠ [] ∧ b.data.all broadC = true ∧ b.data.length ≤ 63 := by
  have he : (validateBucketName b).errors = [] := (bucket_isValid_iff b).mp h
  simp only [validateBucketName, List.append_eq_nil] at he
  obtain ⟨⟨⟨⟨⟨⟨⟨⟨⟨⟨⟨h1, h2⟩, h3⟩, h4⟩, h5⟩, h6⟩, h7⟩, h8⟩, h9⟩, h10⟩, h11⟩, h12⟩ := he
  have hlen : ¬(b.data.length > 63) := if_seg_prop h2 (by simp)
  have hcs : (!(!b.data.isEmpty && b.data.all broadC)) = false := if_seg_bool h3 (by simp)
  have hcs' : b.data.isEmpty = false ∧ b.data.all broadC = true := by
    constructor
    · by_contra hb
      have : b.data.isEmpty = true := by
        cases hx : b.data.isEmpty
        · exact absurd hx hb
        · rfl
      rw [this] at hcs
      simp at hcs
    · by_contra hb
      have : b.data.all broadC = false := by
        cases hx : b.data.all broadC
        · rfl
        · exact absurd hx hb
      rw [this] at hcs
      simp at hcs
  exact ⟨by simpa [List.isEmpty_iff] using hcs'.1, hcs'.2, by omega⟩

lemma slash_not_mem_of_broad {b : String} (h : b.data.all broadC = true) :
    '/' ∉ b.data := not_mem_of_all h (by decide)

lemma arn_entry_ne_empty (x : String) : x ≠ "" → ("arn:aws:s3:::" ++ x) ≠ "" := by
  intro _ hc
  have := congrArg String.data hc
  rw [str_data_append] at this
  simp at this

lemma resources_item_errors_nil (pfx bucketName rp : String) (actions : List String)
    (hb1 : bucketName.data ≠ []) (hb2 : bucketName.data.all broadC = true)
    (hb3 : bucketName.data.length ≤ 63)
    (hp1 : rp.data.head? ≠ some '/') (hp2 : hasSub "//".data rp.data = false) :
    ∀ i, (resourceItemsCheck pfx i ((buildResources bucketName rp actions).map .str)).1
      = [] := by
  have hslash : '/' ∉ bucketName.data := slash_not_mem_of_broad hb2
  have hbucket : ∀ i, (resourceItemCheck pfx i (.str ("arn:aws:s3:::" ++ bucketName))).1 = [] :=
    fun i => resourceItemCheck_errors_nil pfx i bucketName hb1
      (hasSub_false_of_not_mem (c := '/') (by decide) hslash) (fun _ => hb3)
  have hobjData : (bucketName ++ ("/" ++ rp)).data = bucketName.data ++ '/' :: rp.data := rfl
  have hobj : ∀ i, (resourceItemCheck pfx i
      (.str ("arn:aws:s3:::" ++ (bucketName ++ ("/" ++ rp))))).1 = [] := by
    intro i
    apply resourceItemCheck_errors_nil
    · rw [hobjData]
      intro hemp
      simp at hemp
    · rw [hobjData]
      exact no_doubleslash_append _ _ hslash hp1 hp2
    · intro hmem
      exact absurd (by
        rw [hobjData]
        exact List.mem_append_right _ (List.mem_cons_self _ _)) hmem
  have hfbData : (bucketName ++ "/*").data = bucketName.data ++ '/' :: ['*'] := rfl
  have hfb : ∀ i, (resourceItemCheck pfx i
      (.str ("arn:aws:s3:::" ++ (bucketName ++ "/*")))).1 = [] := by
    intro i
    apply resourceItemCheck_errors_nil
    · rw [hfbData]
      intro hemp
      simp at hemp
    · rw [hfbData]
      exact no_doubleslash_append _ _ hslash (by decide) (by decide)
    · intro hmem
      exact absurd (by
        rw [hfbData]
        exact List.mem_append_right _ (List.mem_cons_self _ _)) hmem
  intro i
  cases hB : needsBucketResource actions with
  | true =>
    cases hO : needsObjectResource actions with
    | true =>
      have hshape : buildResources bucketName rp actions =
          ["arn:aws:s3:::" ++ bucketName,
           "arn:aws:s3:::" ++ (bucketName ++ ("/" ++ rp))] := by
        simp [buildResources, hB, hO, str_assoc]
      rw [hshape]
      simp only [List.map_cons, List.map_nil, resourceItemsCheck, hbucket i,
        hobj (i + 1)]
      rfl
    | false =>
      have hshape : buildResources bucketName rp actions =
          ["arn:aws:s3:::" ++ bucketName] := by
        simp [buildResources, hB, hO]
      rw [hshape]
      simp only [List.map_cons, List.map_nil, resourceItemsCheck, hbucket i]
      rfl
  | false =>
    cases hO : needsObjectResource actions with
    | true =>
      have hshape : buildResources bucketName rp actions =
          ["arn:aws:s3:::" ++ (bucketName ++ ("/" ++ rp))] := by
        simp [buildResources, hB, hO, str_assoc]
      rw [hshape]
      simp only [List.map_cons, List.map_nil, resourceItemsCheck, hobj i]
      rfl
    | false =>
      have hshape : buildResources bucketName rp actions =
          ["arn:aws:s3:::" ++ (bucketName ++ "/*")] := by
        simp [buildResources, hB, hO, str_assoc]
      rw [hshape]
      simp only [List.map_cons, List.map_nil, resourceItemsCheck, hfb i]
      rfl

lemma buildResources_truthy (bucketName rp : String) (actions : List String)
    (hb1 : bucketName.data ≠ []) :
    truthy (collapseStr (buildResources bucketName rp actions)) = true := by
  have hb1' : bucketName ≠ "" := by
    intro h
    rw [h] at hb1
    exact hb1 rfl
  cases hB : needsBucketResource actions with
  | true =>
    cases hO : needsObjectResource actions with
    | true => simp only [buildResources, hB, hO]; rfl
    | false =>
      simp only [buildResources, hB, hO]
      show truthy (collapseStr ["arn:aws:s3:::" ++ bucketName]) = true
      simp only [collapseStr, truthy]
      simp [arn_entry_ne_empty bucketName hb1']
  | false =>
    cases hO : needsObjectResource actions with
    | true =>
      simp only [buildResources, hB, hO]
      show truthy (collapseStr ["arn:aws:s3:::" ++ bucketName ++ "/" ++ rp]) = true
      simp only [collapseStr, truthy]
      have : ("arn:aws:s3:::" ++ bucketName ++ "/" ++ rp) ≠ "" := by
        intro hc
        have := congrArg String.data hc
        simp [str_data_append] at this
      simp [this]
    | false =>
      simp only [buildResources, hB, hO]
      show truthy (collapseStr ["arn:aws:s3:::" ++ bucketName ++ "/*"]) = true
      simp only [collapseStr, truthy]
      have : ("arn:aws:s3:::" ++ bucketName ++ "/*") ≠ "" := by
        intro hc
        have := congrArg String.data hc
        simp [str_data_append] at this
      simp [this]

lemma buildResources_ne_nil (b rp : String) (acts : List String) :
    buildResources b rp acts ≠ [] := by
  cases hB : needsBucketResource acts <;> cases hO : needsObjectResource acts <;>
    simp [buildResources, hB, hO]

lemma sidErrors_nil {stmt : Json} (pf : String) {s : String}
    (hS : getKey stmt "Sid" = some (.str s))
    (hne : s.data.isEmpty = false) (hall : s.data.all alnumC = true) :
    sidErrors pf stmt = [] := by
  simp only [sidErrors, hS]
  rw [if_neg (by rw [hne, hall]; simp)]

lemma effectErrors_nil {stmt : Json} (pf : String) {e : String}
    (hE : getKey stmt "Effect" = some (.str e)) (he : e = "Allow" ∨ e = "Deny") :
    effectErrors pf stmt = [] := by
  simp only [effectErrors, hE]
  rcases he with rfl | rfl <;> rfl

lemma actionBlock_errors_nil {stmt : Json} (pf : String) {aj : Json}
    (hA : getKey stmt "Action" = some aj) (hNA : getKey stmt "NotAction" = none)
    (hT : truthy aj = true) (hV : ∀ p, (validateActions p aj).1 = []) :
    (actionBlock pf stmt).1 = [] := by
  simp only [actionBlock, hA, hNA, truthyOpt, hT, Option.getD]
  simp [hV]

lemma resourceBlock_errors_nil {stmt : Json} (pf : String) {rj : Json}
    (hR : getKey stmt "Resource" = some rj) (hNR : getKey stmt "NotResource" = none)
    (hT : truthy rj = true) (hV : ∀ p, (validateResources p rj).1 = []) :
    (resourceBlock pf stmt).1 = [] := by
  simp only [resourceBlock, hR, hNR, truthyOpt, hT, Option.getD]
  simp [hV]

lemma conditionBlockErrors_nil_none {stmt : Json} (pf : String)
    (hC : getKey stmt "Condition" = none) : conditionBlockErrors pf stmt = [] := by
  simp only [conditionBlockErrors, hC]

lemma conditionBlockErrors_nil_some {stmt : Json} (pf : String) {j : Json}
    (hC : getKey stmt "Condition" = some j)
    (hj : truthy j = true → validateCondition (pf ++ ".Condition") j = []) :
    conditionBlockErrors pf stmt = [] := by
  simp only [conditionBlockErrors, hC]
  cases ht : truthy j with
  | true => simp [hj ht]
  | false => rfl

lemma roundtrip_errors_nil (bucketName effect path : String) (actions : List String)
    (now : Nat) (condOpt : Option Json)
    (heff : effect = "Allow" ∨ effect = "Deny")
    (hbkt : (validateBucketName bucketName).isValid = true)
    (hne : actions ≠ [])
    (hact : ∀ a ∈ actions, ':' ∈ a.data)
    (hp1 : (effectivePath path).data.head? ≠ some '/')
    (hp2 : hasSub "//".data (effectivePath path).data = false)
    (hcond : ∀ j, condOpt = some j → truthy j = true →
      validateCondition "Statement[0].Condition" j = []) :
    (validatePolicy (policyToJson ⟨"2012-10-17",
      [⟨"GeneratedPolicy" ++ Nat.repr now, effect, collapseStr actions,
        collapseStr (buildResources bucketName (effectivePath path) actions),
        condOpt⟩]⟩)).1 = [] := by
  obtain ⟨hb1, hb2, hb3⟩ := bucket_valid_facts hbkt
  have hanene : ∀ a ∈ actions, a ≠ "" := by
    intro a ha hae
    have h' := hact a ha
    rw [hae] at h'
    exact absurd h' (by simp)
  have hTact : truthy (collapseStr actions) = true := truthy_collapseStr hne hanene
  have hTres : truthy (collapseStr (buildResources bucketName (effectivePath path) actions))
      = true := buildResources_truthy bucketName (effectivePath path) actions hb1
  have hactV : ∀ p, (validateActions p (collapseStr actions)).1 = [] := by
    intro p
    simp only [validateActions, jsToList_collapseStr hne]
    rw [if_neg (by simp [List.isEmpty_iff, hne])]
    exact actionItemsCheck_errors_nil p actions hact 0
  have hresV : ∀ p, (validateResources p (collapseStr (buildResources bucketName
      (effectivePath path) actions))).1 = [] := by
    intro p
    have hRne := buildResources_ne_nil bucketName (effectivePath path) actions
    simp only [validateResources, jsToList_collapseStr hRne]
    rw [if_neg (by simp [List.isEmpty_iff, hRne])]
    exact resources_item_errors_nil p bucketName (effectivePath path) actions
      hb1 hb2 hb3 hp1 hp2 0
  have hsidNe : ("GeneratedPolicy" ++ Nat.repr now).data.isEmpty = false := rfl
  have hsidAll : ("GeneratedPolicy" ++ Nat.repr now).data.all alnumC = true := by
    have h1 : "GeneratedPolicy".data.all alnumC = true := by decide
    rw [show ("GeneratedPolicy" ++ Nat.repr now).data =
      "GeneratedPolicy".data ++ (Nat.repr now).data from rfl, List.all_append, h1,
      natRepr_all_alnum now]
    rfl
  cases condOpt with
  | none =>
    have hstmt : (validateStatement (.obj
        [("Sid", Json.str ("GeneratedPolicy" ++ Nat.repr now)),
         ("Effect", Json.str effect), ("Action", collapseStr actions),
         ("Resource", collapseStr (buildResources bucketName (effectivePath path) actions))])
        0).1 = [] := by
      show (sidErrors "Statement[0]" (.obj
          [("Sid", Json.str ("GeneratedPolicy" ++ Nat.repr now)),
           ("Effect", Json.str effect), ("Action", collapseStr actions),
           ("Resource", collapseStr (buildResources bucketName (effectivePath path) actions))])
        ++ effectErrors "Statement[0]" (.obj
          [("Sid", Json.str ("GeneratedPolicy" ++ Nat.repr now)),
           ("Effect", Json.str effect), ("Action", collapseStr actions),
           ("Resource", collapseStr (buildResources bucketName (effectivePath path) actions))])
        ++ (actionBlock "Statement[0]" (.obj
          [("Sid", Json.str ("GeneratedPolicy" ++ Nat.repr now)),
           ("Effect", Json.str effect), ("Action", collapseStr actions),
           ("Resource", collapseStr (buildResources bucketName (effectivePath path) actions))])).1
        ++ (resourceBlock "Statement[0]" (.obj
          [("Sid", Json.str ("GeneratedPolicy" ++ Nat.repr now)),
           ("Effect", Json.str effect), ("Action", collapseStr actions),
           ("Resource", collapseStr (buildResources bucketName (effectivePath path) actions))])).1
        ++ conditionBlockErrors "Statement[0]" (.obj
          [("Sid", Json.str ("GeneratedPolicy" ++ Nat.repr now)),
           ("Effect", Json.str effect), ("Action", collapseStr actions),
           ("Resource", collapseStr (buildResources bucketName (effectivePath path) actions))]))
        = []
      simp only [List.append_eq_nil]
      refine ⟨⟨⟨⟨?_, ?_⟩, ?_⟩, ?_⟩, ?_⟩
      · exact sidErrors_nil _ rfl hsidNe hsidAll
      · exact effectErrors_nil _ rfl heff
      · exact actionBlock_errors_nil _ rfl rfl hTact hactV
      · exact resourceBlock_errors_nil _ rfl rfl hTres hresV
      · exact conditionBlockErrors_nil_none _ rfl
    show (((validateStatement (.obj
        [("Sid", Json.str ("GeneratedPolicy" ++ Nat.repr now)),
         ("Effect", Json.str effect), ("Action", collapseStr actions),
         ("Resource", collapseStr (buildResources bucketName (effectivePath path) actions))])
        0).1 ++ []) ++ []) = []
    rw [hstmt]
    rfl
  | some j =>
    have hstmt : (validateStatement (.obj
        [("Sid", Json.str ("GeneratedPolicy" ++ Nat.repr now)),
         ("Effect", Json.str effect), ("Action", collapseStr actions),
         ("Resource", collapseStr (buildResources bucketName (effectivePath path) actions)),
         ("Condition", j)]) 0).1 = [] := by
      show (sidErrors "Statement[0]" (.obj
          [("Sid", Json.str ("GeneratedPolicy" ++ Nat.repr now)),
           ("Effect", Json.str effect), ("Action", collapseStr actions),
           ("Resource", collapseStr (buildResources bucketName (effectivePath path) actions)),
           ("Condition", j)])
        ++ effectErrors "Statement[0]" (.obj
          [("Sid", Json.str ("GeneratedPolicy" ++ Nat.repr now)),
           ("Effect", Json.str effect), ("Action", collapseStr actions),
           ("Resource", collapseStr (buildResources bucketName (effectivePath path) actions)),
           ("Condition", j)])
        ++ (actionBlock "Statement[0]" (.obj
          [("Sid", Json.str ("GeneratedPolicy" ++ Nat.repr now)),
           ("Effect", Json.str effect), ("Action", collapseStr actions),
           ("Resource", collapseStr (buildResources bucketName (effectivePath path) actions)),
           ("Condition", j)])).1
        ++ (resourceBlock "Statement[0]" (.obj
          [("Sid", Json.str ("GeneratedPolicy" ++ Nat.repr now)),
           ("Effect", Json.str effect), ("Action", collapseStr actions),
           ("Resource", collapseStr (buildResources bucketName (effectivePath path) actions)),
           ("Condition", j)])).1
        ++ conditionBlockErrors "Statement[0]" (.obj
          [("Sid", Json.str ("GeneratedPolicy" ++ Nat.repr now)),
           ("Effect", Json.str effect), ("Action", collapseStr actions),
           ("Resource", collapseStr (buildResources bucketName (effectivePath path) actions)),
           ("Condition", j)]))
        = []
      simp only [List.append_eq_nil]
      refine ⟨⟨⟨⟨?_, ?_⟩, ?_⟩, ?_⟩, ?_⟩
      · exact sidErrors_nil _ rfl hsidNe hsidAll
      · exact effectErrors_nil _ rfl heff
      · exact actionBlock_errors_nil _ rfl rfl hTact hactV
      · exact resourceBlock_errors_nil _ rfl rfl hTres hresV
      · refine conditionBlockErrors_nil_some _ rfl ?_
        intro ht
        rw [show ("Statement[0]" : String) ++ ".Condition" = "Statement[0].Condition" from rfl]
        exact hcond j rfl ht
    show (((validateStatement (.obj
        [("Sid", Json.str ("GeneratedPolicy" ++ Nat.repr now)),
         ("Effect", Json.str effect), ("Action", collapseStr actions),
         ("Resource", collapseStr (buildResources bucketName (effectivePath path) actions)),
         ("Condition", j)]) 0).1 ++ []) ++ []) = []
    rw [hstmt]
    rfl

/-- C1 counterexample: the assembler succeeds on the action list
`["Object"]` (non-empty; blank condition; valid bucket name `"abc"`; effect
`Allow`), but the structural validator rejects the resulting document with
one error: the action `"Object"` contains no `':'`, so `validateActions`
reports an invalid-format error.  The claimed unconditional zero-error
round trip fails. -/
theorem c1_counterexample :
    (generatePolicy "abc" "Allow" "" ["Object"] .blank 0).map
      (fun d => (validatePolicy (policyToJson d)).1.length) = .ok 1 := rfl

/-- C1 (amended): a document produced by a successful assembler call passes
the structural validator with zero errors provided the effect is
`Allow`/`Deny`, the bucket name passes BucketNameValidator, every action
contains a `':'`, the effective resource path neither starts with `'/'`
nor contains `"//"`, and any supplied condition value that is truthy
passes the validator's condition rules. -/
theorem c1_roundtrip_amended (bucketName effect path : String) (actions : List String)
    (cond : CondInput) (now : Nat) (doc : Policy)
    (hok : generatePolicy bucketName effect path actions cond now = .ok doc)
    (heff : effect = "Allow" ∨ effect = "Deny")
    (hbkt : (validateBucketName bucketName).isValid = true)
    (hact : ∀ a ∈ actions, ':' ∈ a.data)
    (hp1 : (effectivePath path).data.head? ≠ some '/')
    (hp2 : hasSub "//".data (effectivePath path).data = false)
    (hcond : ∀ j, cond = .parsed j → truthy j = true →
      validateCondition "Statement[0].Condition" j = []) :
    (validatePolicy (policyToJson doc)).1 = [] := by
  have hne : actions ≠ [] := by
    intro h
    rw [h] at hok
    simp [generatePolicy] at hok
  have he : actions.isEmpty = false := by simpa [List.isEmpty_iff] using hne
  cases cond with
  | invalid => simp [generatePolicy, he] at hok
  | blank =>
    simp [generatePolicy, he] at hok
    rw [← hok]
    exact roundtrip_errors_nil bucketName effect path actions now none heff hbkt hne hact
      hp1 hp2 (fun j hj => by cases hj)
  | parsed j =>
    simp [generatePolicy, he] at hok
    rw [← hok]
    refine roundtrip_errors_nil bucketName effect path actions now (some j) heff hbkt hne hact
      hp1 hp2 (fun j' hj ht => ?_)
    obtain rfl : j = j' := Option.some.inj hj
    exact hcond j rfl ht

/-- Witness for `c1_roundtrip_amended` at a concrete successful call. -/
theorem c1_roundtrip_amended_witness :
    (validatePolicy (policyToJson ⟨"2012-10-17",
      [⟨"GeneratedPolicy0", "Allow", .str "s3:GetObject", .str "arn:aws:s3:::abc/*",
        none⟩]⟩)).1 = [] :=
  c1_roundtrip_amended "abc" "Allow" "" ["s3:GetObject"] .blank 0
    ⟨"2012-10-17", [⟨"GeneratedPolicy0", "Allow", .str "s3:GetObject",
      .str "arn:aws:s3:::abc/*", none⟩]⟩
    rfl (Or.inl rfl) (by decide) (by decide) (by decide) (by decide)
    (fun j hj => by cases hj)
